import Mathlib

/-!
# Verification of the board save/versioning/concurrency pipeline

Shallow embedding of the save pipeline of this repository:

* the dynamic (JSON-valued) scene payload together with the JavaScript
  semantics of the property accesses the code performs on it (`JsValue` and
  its access helpers);
* `extractSearchableContent`, `stripMarkdownToPlainText` and
  `extractTextFromTiptapJson` from the boards service;
* `cleanOrphanedFiles` from the boards service;
* `saveVersion` / `restoreVersion` from the boards service, over an explicit
  single-board database state;
* the cleanup endpoint handler (`pages/api/boards/[id]/cleanup.ts`);
* the `isSearchText` classification of `pages/api/boards/[id]/storage.ts`;
* the client autosave controller of `BoardEditor.tsx` as a step function on
  an explicit controller state.

Text is modelled as `List Char` (a JS string is a sequence of characters) and
JS exceptions are modelled with `Except String`.  Functions whose recursion
is not structural carry an explicit fuel argument initialised to a bound the
input cannot exhaust, so every definition is executable and concrete runs
reduce definitionally.
-/

/-- A JSON value: the runtime shape of `sceneJson` / `appStateJson` payloads.
JS `undefined` is represented at access sites by `Option.none`; `null` is its
own value.  Object fields are an association list in insertion order (as
produced by `JSON.parse` and object literals).  Numbers are modelled as
integers; no claim in this development depends on fractional values. -/
inductive JsValue where
  | null : JsValue
  | bool : Bool → JsValue
  | num : Int → JsValue
  | str : List Char → JsValue
  | arr : List JsValue → JsValue
  | obj : List (String × JsValue) → JsValue

/-- JS truthiness of a value (`Boolean(v)`).  Empty strings and the number 0
are falsy; every object and array is truthy. -/
def truthy : JsValue → Bool
  | .null => false
  | .bool b => b
  | .num n => n != 0
  | .str s => !s.isEmpty
  | .arr _ => true
  | .obj _ => true

/-- Truthiness of a possibly-`undefined` value (`Boolean(v)` with `none`
standing for `undefined`). -/
def truthyOpt : Option JsValue → Bool
  | some v => truthy v
  | none => false

/-- First-match field lookup in an object's field list (JS own-property
lookup; parsed objects have unique keys). -/
def jsLookup (fs : List (String × JsValue)) (k : String) : Option JsValue :=
  match fs.find? (fun p => p.1 == k) with
  | some p => some p.2
  | none => none

/-- Property read `v.k` on a non-`null` value: the field on objects,
`undefined` on every other value (primitives have none of the properties this
code reads).  Reading a property of `null` throws a `TypeError`; the
functions below surface that case through an explicit `null` match before
calling this. -/
def jsField (v : JsValue) (k : String) : Option JsValue :=
  match v with
  | .obj fs => jsLookup fs k
  | _ => none

/-- Optional-chained read `o?.k` applied to an already-computed value:
`undefined`/`null` short-circuit to `undefined`; primitives yield
`undefined`. -/
def jsOptChain (o : Option JsValue) (k : String) : Option JsValue :=
  match o with
  | some (.obj fs) => jsLookup fs k
  | _ => none

/-- `for (const x of v)`: arrays iterate their items, strings iterate their
characters (as one-character strings); every other value raises a
`TypeError`. -/
def jsIterate (v : JsValue) : Except String (List JsValue) :=
  match v with
  | .arr xs => .ok xs
  | .str s => .ok (s.map (fun c => .str [c]))
  | _ => .error "TypeError: value is not iterable"

/-- `String(v)` coercion, fuelled for the nested array case.  Arrays
stringify as their elements joined by commas with `null` rendered empty;
plain objects stringify as `[object Object]`. -/
def jsToStringGo : Nat → JsValue → List Char
  | 0, _ => []
  | fuel + 1, v =>
    match v with
    | .null => "null".toList
    | .bool true => "true".toList
    | .bool false => "false".toList
    | .num n => (toString n).toList
    | .str s => s
    | .arr xs =>
        List.intercalate [','] (xs.map (fun w =>
          match w with
          | .null => []
          | _ => jsToStringGo fuel w))
    | .obj _ => "[object Object]".toList

mutual
/-- Structural size of a value; used as a fuel bound that strictly dominates
nesting depth. -/
def jsSize : JsValue → Nat
  | .null => 1
  | .bool _ => 1
  | .num _ => 1
  | .str _ => 1
  | .arr xs => jsSizeList xs + 1
  | .obj fs => jsSizeFields fs + 1
/-- Structural size of a value list. -/
def jsSizeList : List JsValue → Nat
  | [] => 0
  | v :: vs => jsSize v + jsSizeList vs + 1
/-- Structural size of an object field list. -/
def jsSizeFields : List (String × JsValue) → Nat
  | [] => 0
  | (_, v) :: fs => jsSize v + jsSizeFields fs + 1
end

/-- `String(v)`; the fuel `jsSize v` strictly dominates the nesting depth, so
it is never exhausted. -/
def jsToString (v : JsValue) : List Char := jsToStringGo (jsSize v) v

/-- `Object.entries(v)` (also the key set behind `Object.keys`): objects give
their fields, arrays and strings their indexed items, other primitives
nothing. -/
def jsEntries : JsValue → List (String × JsValue)
  | .obj fs => fs
  | .arr xs => xs.enum.map (fun p => (toString p.1, p.2))
  | .str s => s.enum.map (fun p => (toString p.1, JsValue.str [p.2]))
  | _ => []

/-- SameValueZero comparison of a stored `Set` member against a string key,
as performed by `usedFileIds.has(fileId)`: only an identical string
matches. -/
def jsEqStr (v : JsValue) (k : String) : Bool :=
  match v with
  | .str s => s == k.toList
  | _ => false

/-- The object spread `{...scene, files: v}` for a scene that already owns a
`files` key (the only reachable case): the field keeps its position and
receives the new value. -/
def jsSetField (fs : List (String × JsValue)) (k : String) (v : JsValue) :
    List (String × JsValue) :=
  fs.map (fun p => if p.1 == k then (p.1, v) else p)

/-- Whitespace class used by the `\s` regex escapes and `String.trim` (the
ASCII members; the exotic Unicode members are never exercised by this
code's inputs). -/
def isWsChar (c : Char) : Bool :=
  c == ' ' || c == '\t' || c == '\n' || c == '\r' ||
  c == Char.ofNat 11 || c == Char.ofNat 12

/-- `s.trim()`. -/
def jsTrim (l : List Char) : List Char :=
  ((l.dropWhile isWsChar).reverse.dropWhile isWsChar).reverse

/-- `replace(/\s+/g, " ")`: every maximal whitespace run becomes one
space. -/
def collapseWsGo : Bool → List Char → List Char
  | _, [] => []
  | prevWs, c :: rest =>
    if isWsChar c then
      if prevWs then collapseWsGo true rest else ' ' :: collapseWsGo true rest
    else c :: collapseWsGo false rest

/-- `replace(/\s+/g, " ")` entry point. -/
def collapseWs (l : List Char) : List Char := collapseWsGo false l

/-- Does the list start with the given pattern? (`String.startsWith`). -/
def strStartsWith : List Char → List Char → Bool
  | [], _ => true
  | _ :: _, [] => false
  | p :: ps, c :: cs => p == c && strStartsWith ps cs

/-- Split a list at the first occurrence of a character: the part before it
and the part after it (the character itself dropped). -/
def splitAtChar (c : Char) : List Char → Option (List Char × List Char)
  | [] => none
  | x :: xs =>
    if x == c then some ([], xs)
    else
      match splitAtChar c xs with
      | some p => some (x :: p.1, p.2)
      | none => none

/-- Locate the first triple-backtick fence: the part before it and the part
after its three characters. -/
def findTripleBacktick : List Char → Option (List Char × List Char)
  | '`' :: '`' :: '`' :: rest => some ([], rest)
  | c :: rest =>
    match findTripleBacktick rest with
    | some p => some (c :: p.1, p.2)
    | none => none
  | [] => none

/-- `replace(/```[\s\S]*?```/g, "")`: drop lazily-matched fenced code blocks.
An unpaired fence matches nothing (a match needs two fences, so once the
first remaining fence has no partner no match exists at any position). -/
def removeCodeBlocksGo : Nat → List Char → List Char
  | 0, l => l
  | fuel + 1, l =>
    match findTripleBacktick l with
    | none => l
    | some p =>
      match findTripleBacktick p.2 with
      | none => l
      | some q => p.1 ++ removeCodeBlocksGo fuel q.2

/-- `replace(/```[\s\S]*?```/g, "")` entry point. -/
def removeCodeBlocks (l : List Char) : List Char := removeCodeBlocksGo l.length l

/-- `replace(/`[^`]+`/g, "")`: drop inline code spans; an empty span does
not match, so scanning resumes at the second backtick. -/
def removeInlineCodeGo : Nat → List Char → List Char
  | 0, l => l
  | _ + 1, [] => []
  | fuel + 1, x :: xs =>
    if x == '`' then
      match splitAtChar '`' xs with
      | none => x :: xs
      | some p =>
        if p.1.isEmpty then x :: removeInlineCodeGo fuel xs
        else removeInlineCodeGo fuel p.2
    else x :: removeInlineCodeGo fuel xs

/-- `replace(/`[^`]+`/g, "")` entry point. -/
def removeInlineCode (l : List Char) : List Char := removeInlineCodeGo l.length l

/-- Count the leading occurrences of a character. -/
def countLeading (c : Char) : List Char → Nat
  | x :: xs => if x == c then countLeading c xs + 1 else 0
  | [] => 0

/-- Is the head of the list a whitespace character? -/
def headIsWs (l : List Char) : Bool :=
  match l with
  | c :: _ => isWsChar c
  | [] => false

/-- Does the list end with a newline? (decides whether a consumed greedy
whitespace run leaves the scanner at a fresh line start) -/
def lastIsNewline (l : List Char) : Bool :=
  match l.getLast? with
  | some c => c == '\n'
  | none => false

/-- `replace(/^#{1,6}\s+/gm, "")`: at a line start, one to six hashes
followed by whitespace are removed together with the whole greedy
whitespace run (which may cross newlines).  Seven or more hashes match
nothing. -/
def removeHeadersGo : Nat → Bool → List Char → List Char
  | 0, _, l => l
  | _ + 1, _, [] => []
  | fuel + 1, atStart, x :: xs =>
    if atStart then
      let n := countLeading '#' (x :: xs)
      let rest := (x :: xs).drop n
      if 1 ≤ n && n ≤ 6 && headIsWs rest then
        let run := rest.takeWhile isWsChar
        removeHeadersGo fuel (lastIsNewline run) (rest.dropWhile isWsChar)
      else x :: removeHeadersGo fuel (x == '\n') xs
    else x :: removeHeadersGo fuel (x == '\n') xs

/-- `replace(/^#{1,6}\s+/gm, "")` entry point (position 0 is a line start). -/
def removeHeaders (l : List Char) : List Char := removeHeadersGo l.length true l

/-- `replace(/\*\*([^*]+)\*\*/g, "$1")` and `replace(/__([^_]+)__/g, "$1")`:
a doubled delimiter, at least one non-delimiter character, and a doubled
delimiter again collapse to the enclosed text; on failure the scan advances
one character. -/
def removeDoubleDelimGo (d : Char) : Nat → List Char → List Char
  | 0, l => l
  | _ + 1, [] => []
  | fuel + 1, x :: xs =>
    if x == d && headIsChar d xs then
      let rest := xs.tail
      let body := rest.takeWhile (fun c => c != d)
      let after := rest.dropWhile (fun c => c != d)
      match after with
      | _ :: b :: tl =>
        if !body.isEmpty && b == d then body ++ removeDoubleDelimGo d fuel tl
        else x :: removeDoubleDelimGo d fuel xs
      | _ => x :: removeDoubleDelimGo d fuel xs
    else x :: removeDoubleDelimGo d fuel xs
where
  headIsChar (c : Char) (l : List Char) : Bool :=
    match l with
    | y :: _ => y == c
    | [] => false

/-- `replace(/\*([^*]+)\*/g, "$1")` and `replace(/_([^_]+)_/g, "$1")`: a
single delimiter pair around at least one non-delimiter character collapses
to the enclosed text. -/
def removeSingleDelimGo (d : Char) : Nat → List Char → List Char
  | 0, l => l
  | _ + 1, [] => []
  | fuel + 1, x :: xs =>
    if x == d then
      let body := xs.takeWhile (fun c => c != d)
      let after := xs.dropWhile (fun c => c != d)
      match after with
      | _ :: tl =>
        if !body.isEmpty then body ++ removeSingleDelimGo d fuel tl
        else x :: removeSingleDelimGo d fuel xs
      | [] => x :: removeSingleDelimGo d fuel xs
    else x :: removeSingleDelimGo d fuel xs

/-- `replace(/\[([^\]]+)\]\([^)]+\)/g, "$1")`: link syntax collapses to the
link text. -/
def removeLinksGo : Nat → List Char → List Char
  | 0, l => l
  | _ + 1, [] => []
  | fuel + 1, x :: xs =>
    if x == '[' then
      match splitAtChar ']' xs with
      | some p =>
        if p.1.isEmpty then x :: removeLinksGo fuel xs
        else
          match p.2 with
          | '(' :: r2 =>
            match splitAtChar ')' r2 with
            | some q =>
              if q.1.isEmpty then x :: removeLinksGo fuel xs
              else p.1 ++ removeLinksGo fuel q.2
            | none => x :: removeLinksGo fuel xs
          | _ => x :: removeLinksGo fuel xs
      | none => x :: removeLinksGo fuel xs
    else x :: removeLinksGo fuel xs

/-- `replace(/\[([^\]]+)\]\([^)]+\)/g, "$1")` entry point. -/
def removeLinks (l : List Char) : List Char := removeLinksGo l.length l

/-- `replace(/!\[([^\]]*)\]\([^)]+\)/g, "$1")`: image syntax collapses to the
(possibly empty) alt text. -/
def removeImagesGo : Nat → List Char → List Char
  | 0, l => l
  | _ + 1, [] => []
  | fuel + 1, x :: xs =>
    if x == '!' then
      match xs with
      | '[' :: ys =>
        match splitAtChar ']' ys with
        | some p =>
          match p.2 with
          | '(' :: r2 =>
            match splitAtChar ')' r2 with
            | some q =>
              if q.1.isEmpty then x :: removeImagesGo fuel xs
              else p.1 ++ removeImagesGo fuel q.2
            | none => x :: removeImagesGo fuel xs
          | _ => x :: removeImagesGo fuel xs
        | none => x :: removeImagesGo fuel xs
      | _ => x :: removeImagesGo fuel xs
    else x :: removeImagesGo fuel xs

/-- `replace(/!\[([^\]]*)\]\([^)]+\)/g, "$1")` entry point. -/
def removeImages (l : List Char) : List Char := removeImagesGo l.length l

/-- A horizontal-rule character (`[-*_]`, mixing allowed). -/
def isHrChar (c : Char) : Bool := c == '-' || c == '*' || c == '_'

/-- The suffix of a list starting at its last newline, if it has one (used to
realise the backtracking of a greedy `\s*` followed by a multiline `$`). -/
def suffixFromLastNewline : List Char → Option (List Char)
  | [] => none
  | x :: xs =>
    match suffixFromLastNewline xs with
    | some s => some s
    | none => if x == '\n' then some (x :: xs) else none

/-- `replace(/^[-*_]{3,}\s*$/gm, "")`: a full line of three or more rule
characters (trailing whitespace allowed) is removed; the greedy `\s*`
backtracks to the last position standing before a newline or the end. -/
def removeHRulesGo : Nat → Bool → List Char → List Char
  | 0, _, l => l
  | _ + 1, _, [] => []
  | fuel + 1, atStart, x :: xs =>
    if atStart then
      let d := (x :: xs).takeWhile isHrChar
      let rest := (x :: xs).dropWhile isHrChar
      if d.length ≥ 3 then
        let rest2 := rest.dropWhile isWsChar
        if rest2.isEmpty then []
        else
          match suffixFromLastNewline (rest.takeWhile isWsChar) with
          | some s => removeHRulesGo fuel false (s ++ rest2)
          | none => x :: removeHRulesGo fuel (x == '\n') xs
      else x :: removeHRulesGo fuel (x == '\n') xs
    else x :: removeHRulesGo fuel (x == '\n') xs

/-- `replace(/^[-*_]{3,}\s*$/gm, "")` entry point. -/
def removeHRules (l : List Char) : List Char := removeHRulesGo l.length true l

/-- A bullet list marker (`[-*+]`). -/
def isBulletChar (c : Char) : Bool := c == '-' || c == '*' || c == '+'

/-- `replace(/^[\s]*[-*+]\s+/gm, "")`: at a line start, leading whitespace
(possibly spanning blank lines), a bullet marker and the following greedy
whitespace run are removed. -/
def removeBulletListsGo : Nat → Bool → List Char → List Char
  | 0, _, l => l
  | _ + 1, _, [] => []
  | fuel + 1, atStart, x :: xs =>
    if atStart then
      let r1 := (x :: xs).dropWhile isWsChar
      match r1 with
      | m :: r2 =>
        if isBulletChar m && headIsWs r2 then
          removeBulletListsGo fuel (lastIsNewline (r2.takeWhile isWsChar))
            (r2.dropWhile isWsChar)
        else x :: removeBulletListsGo fuel (x == '\n') xs
      | [] => x :: removeBulletListsGo fuel (x == '\n') xs
    else x :: removeBulletListsGo fuel (x == '\n') xs

/-- `replace(/^[\s]*[-*+]\s+/gm, "")` entry point. -/
def removeBulletLists (l : List Char) : List Char :=
  removeBulletListsGo l.length true l

/-- `replace(/^[\s]*\d+\.\s+/gm, "")`: at a line start, leading whitespace,
digits, a dot and the following greedy whitespace run are removed. -/
def removeNumberedListsGo : Nat → Bool → List Char → List Char
  | 0, _, l => l
  | _ + 1, _, [] => []
  | fuel + 1, atStart, x :: xs =>
    if atStart then
      let r1 := (x :: xs).dropWhile isWsChar
      let ds := r1.takeWhile Char.isDigit
      let r2 := r1.dropWhile Char.isDigit
      match r2 with
      | '.' :: r3 =>
        if !ds.isEmpty && headIsWs r3 then
          removeNumberedListsGo fuel (lastIsNewline (r3.takeWhile isWsChar))
            (r3.dropWhile isWsChar)
        else x :: removeNumberedListsGo fuel (x == '\n') xs
      | _ => x :: removeNumberedListsGo fuel (x == '\n') xs
    else x :: removeNumberedListsGo fuel (x == '\n') xs

/-- `replace(/^[\s]*\d+\.\s+/gm, "")` entry point. -/
def removeNumberedLists (l : List Char) : List Char :=
  removeNumberedListsGo l.length true l

/-- `replace(/^>\s+/gm, "")`: a blockquote marker at a line start and its
greedy whitespace run are removed. -/
def removeBlockquotesGo : Nat → Bool → List Char → List Char
  | 0, _, l => l
  | _ + 1, _, [] => []
  | fuel + 1, atStart, x :: xs =>
    if atStart && x == '>' && headIsWs xs then
      removeBlockquotesGo fuel (lastIsNewline (xs.takeWhile isWsChar))
        (xs.dropWhile isWsChar)
    else x :: removeBlockquotesGo fuel (x == '\n') xs

/-- `replace(/^>\s+/gm, "")` entry point. -/
def removeBlockquotes (l : List Char) : List Char :=
  removeBlockquotesGo l.length true l

/-- `replace(/\n{3,}/g, "\n\n")`: runs of three or more newlines collapse to
two. -/
def collapseBlankLinesGo : Nat → List Char → List Char
  | 0, l => l
  | _ + 1, [] => []
  | fuel + 1, x :: xs =>
    if x == '\n' then
      let run := (x :: xs).takeWhile (fun c => c == '\n')
      let rest := (x :: xs).dropWhile (fun c => c == '\n')
      if run.length ≥ 3 then '\n' :: '\n' :: collapseBlankLinesGo fuel rest
      else run ++ collapseBlankLinesGo fuel rest
    else x :: collapseBlankLinesGo fuel xs

/-- `replace(/\n{3,}/g, "\n\n")` entry point. -/
def collapseBlankLines (l : List Char) : List Char :=
  collapseBlankLinesGo l.length l

/-- `replace(/\*\*([^*]+)\*\*/g, "$1")` entry point. -/
def removeDoubleStars (l : List Char) : List Char := removeDoubleDelimGo '*' l.length l

/-- `replace(/\*([^*]+)\*/g, "$1")` entry point. -/
def removeSingleStars (l : List Char) : List Char := removeSingleDelimGo '*' l.length l

/-- `replace(/__([^_]+)__/g, "$1")` entry point. -/
def removeDoubleUnderscores (l : List Char) : List Char := removeDoubleDelimGo '_' l.length l

/-- `replace(/_([^_]+)_/g, "$1")` entry point. -/
def removeSingleUnderscores (l : List Char) : List Char := removeSingleDelimGo '_' l.length l

/-- `stripMarkdownToPlainText` (boards service): the replacement chain of the
source, applied in source order, followed by `trim()`. -/
def stripMarkdownToPlainText (markdown : List Char) : List Char :=
  jsTrim (collapseBlankLines (removeBlockquotes (removeNumberedLists
    (removeBulletLists (removeHRules (removeImages (removeLinks
      (removeSingleUnderscores (removeDoubleUnderscores (removeSingleStars
        (removeDoubleStars (removeHeaders
          (removeInlineCode (removeCodeBlocks markdown))))))))))))))

/-- JSON whitespace accepted between tokens by `JSON.parse`. -/
def isJsonWs (c : Char) : Bool :=
  c == ' ' || c == '\t' || c == '\n' || c == '\r'

/-- Value of a digit run. -/
def digitsToNat (ds : List Char) : Nat :=
  ds.foldl (fun acc c => acc * 10 + (c.toNat - '0'.toNat)) 0

/-- Parse the body of a JSON string literal after the opening quote,
handling the single-character escapes (the `\uXXXX` escape is not modelled;
no input of this development uses it). -/
def parseJsonStringGo : Nat → List Char → List Char → Except Unit (List Char × List Char)
  | 0, _, _ => .error ()
  | fuel + 1, l, acc =>
    match l with
    | [] => .error ()
    | '"' :: r => .ok (acc.reverse, r)
    | '\\' :: e :: r =>
      match e with
      | '"' => parseJsonStringGo fuel r ('"' :: acc)
      | '\\' => parseJsonStringGo fuel r ('\\' :: acc)
      | '/' => parseJsonStringGo fuel r ('/' :: acc)
      | 'n' => parseJsonStringGo fuel r ('\n' :: acc)
      | 't' => parseJsonStringGo fuel r ('\t' :: acc)
      | 'r' => parseJsonStringGo fuel r ('\r' :: acc)
      | 'b' => parseJsonStringGo fuel r (Char.ofNat 8 :: acc)
      | 'f' => parseJsonStringGo fuel r (Char.ofNat 12 :: acc)
      | _ => .error ()
    | c :: r => parseJsonStringGo fuel r (c :: acc)

/-- Parse a JSON number: sign and integer digits; a fractional part and an
exponent are consumed for well-formedness but the value keeps the integer
part (no claim depends on fractional values). -/
def parseJsonNumber (l : List Char) : Except Unit (JsValue × List Char) :=
  let sign : Bool := match l with | '-' :: _ => true | _ => false
  let l1 := match l with | '-' :: r => r | _ => l
  let ds := l1.takeWhile Char.isDigit
  let r1 := l1.dropWhile Char.isDigit
  if ds.isEmpty then .error ()
  else
    let r2 := match r1 with
      | '.' :: r => if (r.takeWhile Char.isDigit).isEmpty then r1
                    else r.dropWhile Char.isDigit
      | _ => r1
    let r3 := match r2 with
      | 'e' :: r => expTail r
      | 'E' :: r => expTail r
      | _ => r2
    let n : Int := Int.ofNat (digitsToNat ds)
    .ok (.num (if sign then -n else n), r3)
where
  expTail (r : List Char) : List Char :=
    let r' := match r with
      | '+' :: t => t
      | '-' :: t => t
      | _ => r
    if (r'.takeWhile Char.isDigit).isEmpty then r else r'.dropWhile Char.isDigit

mutual
/-- Recursive-descent JSON value parser (`JSON.parse`), fuelled. -/
def parseJsonValueGo : Nat → List Char → Except Unit (JsValue × List Char)
  | 0, _ => .error ()
  | fuel + 1, l =>
    match l.dropWhile isJsonWs with
    | 'n' :: 'u' :: 'l' :: 'l' :: r => .ok (.null, r)
    | 't' :: 'r' :: 'u' :: 'e' :: r => .ok (.bool true, r)
    | 'f' :: 'a' :: 'l' :: 's' :: 'e' :: r => .ok (.bool false, r)
    | '"' :: r =>
      match parseJsonStringGo (r.length + 1) r [] with
      | .ok p => .ok (.str p.1, p.2)
      | .error e => .error e
    | '[' :: r =>
      (match r.dropWhile isJsonWs with
       | ']' :: r2 => .ok (.arr [], r2)
       | _ =>
         match parseJsonArrayItemsGo fuel r with
         | .ok p => .ok (.arr p.1, p.2)
         | .error e => .error e)
    | '{' :: r =>
      (match r.dropWhile isJsonWs with
       | '}' :: r2 => .ok (.obj [], r2)
       | _ =>
         match parseJsonObjectItemsGo fuel r with
         | .ok p => .ok (.obj p.1, p.2)
         | .error e => .error e)
    | l' => parseJsonNumber l'

/-- Comma-separated array items up to the closing bracket. -/
def parseJsonArrayItemsGo : Nat → List Char → Except Unit (List JsValue × List Char)
  | 0, _ => .error ()
  | fuel + 1, l =>
    match parseJsonValueGo fuel l with
    | .error e => .error e
    | .ok p =>
      match p.2.dropWhile isJsonWs with
      | ',' :: r =>
        (match parseJsonArrayItemsGo fuel r with
         | .ok q => .ok (p.1 :: q.1, q.2)
         | .error e => .error e)
      | ']' :: r => .ok ([p.1], r)
      | _ => .error ()

/-- Comma-separated `"key": value` object members up to the closing brace. -/
def parseJsonObjectItemsGo : Nat → List Char → Except Unit (List (String × JsValue) × List Char)
  | 0, _ => .error ()
  | fuel + 1, l =>
    match l.dropWhile isJsonWs with
    | '"' :: r =>
      (match parseJsonStringGo (r.length + 1) r [] with
       | .error e => .error e
       | .ok kp =>
         match kp.2.dropWhile isJsonWs with
         | ':' :: r2 =>
           (match parseJsonValueGo fuel r2 with
            | .error e => .error e
            | .ok vp =>
              match vp.2.dropWhile isJsonWs with
              | ',' :: r3 =>
                (match parseJsonObjectItemsGo fuel r3 with
                 | .ok q => .ok ((⟨kp.1⟩, vp.1) :: q.1, q.2)
                 | .error e => .error e)
              | '}' :: r3 => .ok ([(⟨kp.1⟩, vp.1)], r3)
              | _ => .error ())
         | _ => .error ())
    | _ => .error ()
end

/-- `JSON.parse(x)`: the argument is coerced with `String(x)` first, then
parsed; trailing garbage is an error.  The fuel dominates the input length
and hence any nesting depth. -/
def parseJson (x : JsValue) : Except Unit JsValue :=
  let src := jsToString x
  match parseJsonValueGo (src.length + 1) src with
  | .ok p => if (p.2.dropWhile isJsonWs).isEmpty then .ok p.1 else .error ()
  | .error e => .error e

/-- An element rendered by `Array.prototype.join(" ")`: `null` (and
`undefined`) render empty, everything else via `String(v)`. -/
def jsJoinElem (v : JsValue) : List Char :=
  match v with
  | .null => []
  | _ => jsToString v

/-- `extractTextFromTiptapJson` (boards service), fuelled by nesting depth:

```
if (node.text) return node.text;
if (node.content) return node.content.map(child => ...).join(" ");
return "";
```

Reading `.text` on `null` raises a `TypeError`; calling `.map` on a truthy
non-array `content` raises a `TypeError` (both are swallowed by the caller's
`try/catch`).  The leaf returns the raw `text` value, which the joins and the
caller stringify. -/
def extractTextFromTiptapJsonGo : Nat → JsValue → Except String JsValue
  | 0, _ => .error "fuel exhausted"
  | fuel + 1, node =>
    match node with
    | .null => .error "TypeError: cannot read properties of null"
    | _ =>
      let tOpt : Option JsValue :=
        match node with
        | .obj fs => jsLookup fs "text"
        | _ => none
      if truthyOpt tOpt then .ok (tOpt.getD .null)
      else
        let cOpt : Option JsValue :=
          match node with
          | .obj fs => jsLookup fs "content"
          | _ => none
        if truthyOpt cOpt then
          match cOpt with
          | some (.arr xs) =>
            (match xs.mapM (extractTextFromTiptapJsonGo fuel) with
             | .ok rs => .ok (.str (List.intercalate [' '] (rs.map jsJoinElem)))
             | .error e => .error e)
          | _ => .error "TypeError: map is not a function"
        else .ok (.str [])

/-- `extractTextFromTiptapJson` entry point; `jsSize` dominates the depth of
the node tree, so the fuel is never exhausted. -/
def extractTextFromTiptapJson (node : JsValue) : Except String JsValue :=
  extractTextFromTiptapJsonGo (jsSize node) node

/-- Is `element.type === "text"`? (strict equality against the string). -/
def tyIsText (o : Option JsValue) : Bool :=
  match o with
  | some (.str s) => s == "text".toList
  | _ => false

/-- Is `element.type === "image"`? (strict equality against the string). -/
def tyIsImage (o : Option JsValue) : Bool :=
  match o with
  | some (.str s) => s == "image".toList
  | _ => false

/-- The body of `extractSearchableContent`'s element loop (boards service):

```
if (element.isDeleted) continue;
if (element.customData?.isMarkdownSearchText || element.customData?.isRichTextSearchText) continue;
if (element.type === "text" && element.text) textParts.push(element.text);
if (element.customData?.isMarkdownCard && element.customData?.markdown) { ...strip... }
if (element.customData?.isRichTextCard && element.customData?.richTextContent) { try { ...parse+walk... } catch {} }
```

The first property read (`element.isDeleted`) throws on a `null` element —
`extractElementParts` surfaces that case and hands every other element to
this body; a truthy non-string `markdown` value makes `markdown.replace(...)`
throw; the rich-text branch swallows its own failures with `try/catch`. -/
def extractElementPartsBody (parts : List (List Char)) (element : JsValue) :
    Except String (List (List Char)) :=
    if truthyOpt (jsField element "isDeleted") then .ok parts
    else
      let cd := jsField element "customData"
      if truthyOpt (jsOptChain cd "isMarkdownSearchText") ||
          truthyOpt (jsOptChain cd "isRichTextSearchText") then .ok parts
      else
        let parts1 :=
          if tyIsText (jsField element "type") && truthyOpt (jsField element "text") then
            parts ++ [jsToString ((jsField element "text").getD .null)]
          else parts
        let mdResult : Except String (List (List Char)) :=
          if truthyOpt (jsOptChain cd "isMarkdownCard") &&
              truthyOpt (jsOptChain cd "markdown") then
            match jsOptChain cd "markdown" with
            | some (.str s) =>
              let plainText := stripMarkdownToPlainText s
              .ok (if plainText.isEmpty then parts1 else parts1 ++ [plainText])
            | _ => .error "TypeError: markdown.replace is not a function"
          else .ok parts1
        match mdResult with
        | .error e => .error e
        | .ok parts2 =>
          .ok (if truthyOpt (jsOptChain cd "isRichTextCard") &&
                  truthyOpt (jsOptChain cd "richTextContent") then
                match parseJson ((jsOptChain cd "richTextContent").getD .null) with
                | .error _ => parts2
                | .ok content =>
                  match extractTextFromTiptapJson content with
                  | .error _ => parts2
                  | .ok plainText =>
                    if truthy plainText then parts2 ++ [jsToString plainText]
                    else parts2
              else parts2)

/-- One iteration of `extractSearchableContent`'s element loop: the first
property read (`element.isDeleted`) throws a `TypeError` on a `null`
element; any other element is processed by `extractElementPartsBody`. -/
def extractElementParts (parts : List (List Char)) (element : JsValue) :
    Except String (List (List Char)) :=
  match element with
  | .null => .error "TypeError: cannot read properties of null"
  | _ => extractElementPartsBody parts element

/-- The loop of `extractSearchableContent` over the element list,
accumulating `textParts` in push order and propagating a thrown
`TypeError`. -/
def extractPartsGo (parts : List (List Char)) :
    List JsValue → Except String (List (List Char))
  | [] => .ok parts
  | el :: rest =>
    match extractElementParts parts el with
    | .error e => .error e
    | .ok parts' => extractPartsGo parts' rest

/-- `extractSearchableContent` (boards service) before the size cap: collect
the per-element contributions, join with single spaces, collapse whitespace
and trim:

```
const scene = sceneJson as { elements?: SceneElement[] } | null;
if (!scene?.elements) return "";
...loop...
const fullText = textParts.join(" ").replace(/\s+/g, " ").trim();
``` -/
def extractFullText (sceneJson : JsValue) : Except String (List Char) :=
  let elemsOpt := jsField sceneJson "elements"
  if !truthyOpt elemsOpt then .ok []
  else
    match jsIterate (elemsOpt.getD .null) with
    | .error e => .error e
    | .ok items =>
      match extractPartsGo [] items with
      | .error e => .error e
      | .ok parts => .ok (jsTrim (collapseWs (List.intercalate [' '] parts)))

/-- `MAX_SEARCH_CONTENT_LENGTH` (boards service). -/
def MAX_SEARCH_CONTENT_LENGTH : Nat := 50000

/-- `extractSearchableContent` (boards service): the joined, normalized text,
truncated with `slice(0, MAX_SEARCH_CONTENT_LENGTH)` when it exceeds the cap
(the oversize case additionally emits a `console.warn`, a log with no effect
on the value). -/
def extractSearchableContent (sceneJson : JsValue) : Except String (List Char) :=
  (extractFullText sceneJson).map (fun fullText =>
    if fullText.length > MAX_SEARCH_CONTENT_LENGTH then
      fullText.take MAX_SEARCH_CONTENT_LENGTH
    else fullText)

/-- The `isSearchText` classification of the storage endpoint
(`pages/api/boards/[id]/storage.ts`):

```
element.customData?.isMarkdownSearchText ||
element.customData?.isRichTextSearchText ||
element.id?.startsWith("rtsearch-") ||
element.id?.startsWith("mdsearch-")
```

(the `id?.startsWith` call is modelled for string ids, the only shape
appearing in scenes; a truthy non-string id would throw there). -/
def isSearchText (element : JsValue) : Bool :=
  let cd : Option JsValue :=
    match element with
    | .obj fs => jsLookup fs "customData"
    | _ => none
  let idv : Option JsValue :=
    match element with
    | .obj fs => jsLookup fs "id"
    | _ => none
  truthyOpt (jsOptChain cd "isMarkdownSearchText") ||
  truthyOpt (jsOptChain cd "isRichTextSearchText") ||
  (match idv with
   | some (.str s) =>
     strStartsWith "rtsearch-".toList s || strStartsWith "mdsearch-".toList s
   | _ => false)

/-- The `usedFileIds` scan shared by `cleanOrphanedFiles` and the cleanup
handler: every element with `type === "image"` and a truthy `fileId`
contributes its `fileId` value (the element's `isDeleted` flag is never
consulted); a `null` element throws. -/
def imageFileIdsGo (acc : List JsValue) :
    List JsValue → Except String (List JsValue)
  | [] => .ok acc
  | el :: rest =>
    match el with
    | .null => .error "TypeError: cannot read properties of null"
    | _ =>
      imageFileIdsGo
        (if tyIsImage (jsField el "type") && truthyOpt (jsField el "fileId") then
          acc ++ [(jsField el "fileId").getD .null]
        else acc) rest

/-- `usedFileIds` entry point. -/
def imageFileIds (elements : List JsValue) : Except String (List JsValue) :=
  imageFileIdsGo [] elements

/-- The `usedFileIds` block shared verbatim by `cleanOrphanedFiles` and the
cleanup handler:

```
const usedFileIds = new Set<string>();
if (scene.elements) { for (const element of scene.elements) { ... } }
``` -/
def usedFileIdsOf (sceneJson : JsValue) : Except String (List JsValue) :=
  let elemsOpt := jsField sceneJson "elements"
  if truthyOpt elemsOpt then
    match jsIterate (elemsOpt.getD .null) with
    | .error e => .error e
    | .ok items => imageFileIds items
  else .ok []

/-- `cleanOrphanedFiles` (boards service):

```
if (!scene?.files || Object.keys(scene.files).length === 0) return sceneJson;
const usedFileIds = new Set(); if (scene.elements) { for (...) ... }
const cleanedFiles = {}; for (const [fileId, fileData] of Object.entries(scene.files)) ...
return { ...scene, files: cleanedFiles };
```

The rebuild keeps exactly the entries whose key is in `usedFileIds` and the
spread only replaces the `files` field.  Iterating a truthy non-iterable
`elements` value throws. -/
def cleanOrphanedFiles (sceneJson : JsValue) : Except String JsValue :=
  let filesOpt := jsField sceneJson "files"
  if !truthyOpt filesOpt then .ok sceneJson
  else
    let files := filesOpt.getD .null
    if (jsEntries files).length == 0 then .ok sceneJson
    else
      match usedFileIdsOf sceneJson with
      | .error e => .error e
      | .ok usedFileIds =>
        let cleanedFiles :=
          (jsEntries files).filter (fun p => usedFileIds.any (fun u => jsEqStr u p.1))
        match sceneJson with
        | .obj fs => .ok (.obj (jsSetField fs "files" (.obj cleanedFiles)))
        | _ => .ok sceneJson

/-- The `Board` row fields that the save pipeline reads or writes.  The
`updatedAt` timestamp (the only field the cleanup handler updates on the
board) is not modelled; no claim depends on it. -/
structure BoardRow where
  versionNumber : Nat
  currentVersionId : Nat
  etag : String
  searchContent : List Char
  thumbnail : Option String

/-- A `BoardVersion` row. -/
structure VersionRow where
  id : Nat
  version : Nat
  createdById : String
  sceneJson : JsValue
  appStateJson : Option JsValue
  label : Option String
  thumbnailUrl : Option String

/-- The state of one board's slice of the database: its `Board` row, its
`BoardVersion` rows in creation order, and the id the next created row
receives. -/
structure BoardState where
  board : BoardRow
  versions : List VersionRow
  nextRowId : Nat

/-- `SaveVersionInput` (boards service), minus the board id (the state is a
single board's). -/
structure SaveVersionInput where
  userId : String
  sceneJson : JsValue
  appStateJson : Option JsValue
  label : Option String
  expectedEtag : Option String
  thumbnail : Option String

/-- The result of `saveVersion`: `{ conflict: true, currentEtag }` or
`{ conflict: false, version, etag }`. -/
inductive SaveOutcome where
  | conflict (currentEtag : String)
  | ok (version : VersionRow) (etag : String)

/-- `prisma.boardVersion.findFirst({ orderBy: { version: "desc" } })`. -/
def findLatestVersion (vs : List VersionRow) : Option VersionRow :=
  vs.foldl (fun acc v =>
    match acc with
    | none => some v
    | some a => if v.version > a.version then some v else some a) none

/-- `prisma.boardVersion.findUnique({ where: { boardId_version } })`. -/
def getBoardVersion (st : BoardState) (version : Nat) : Option VersionRow :=
  st.versions.find? (fun v => v.version == version)

/-- `saveVersion` (boards service).  `newEtag` stands for the freshly
generated  token `boardId-Date.now()-random` of the source.  Orphan
collection and text extraction run before the transaction, so their
exceptions abort the request with no write.  The conflict test is the
source's `if (expectedEtag && board.etag !== expectedEtag)` — a falsy
(empty) caller token skips the check.  The version insert respects the
schema's `(boardId, version)` unique key (the `boardId_version` selector),
so a colliding version number makes the transaction throw. -/
def etagConflict (expectedEtag : Option String) (storedEtag : String) : Bool :=
  match expectedEtag with
  | some t => t != "" && storedEtag != t
  | none => false

/-- The `BoardVersion` row created by a successful `saveVersion`. -/
def savedRow (st : BoardState) (input : SaveVersionInput) (cleanedSceneJson : JsValue) :
    VersionRow :=
  { id := st.nextRowId
    version := st.board.versionNumber + 1
    createdById := input.userId
    sceneJson := cleanedSceneJson
    appStateJson := input.appStateJson
    label := input.label
    thumbnailUrl := input.thumbnail }

/-- The state after a successful `saveVersion`: the new row is appended and
the board row receives the new version number, pointer, etag and search
content (the thumbnail only when truthy: `...(thumbnail && { thumbnail })`). -/
def savedState (st : BoardState) (input : SaveVersionInput)
    (cleanedSceneJson : JsValue) (searchContent : List Char) (newEtag : String) :
    BoardState :=
  { board :=
      { versionNumber := st.board.versionNumber + 1
        currentVersionId := st.nextRowId
        etag := newEtag
        searchContent := searchContent
        thumbnail :=
          match input.thumbnail with
          | some th => if th != "" then some th else st.board.thumbnail
          | none => st.board.thumbnail }
    versions := st.versions ++ [savedRow st input cleanedSceneJson]
    nextRowId := st.nextRowId + 1 }

/-- `saveVersion` (boards service), body. -/
def saveVersion (st : BoardState) (input : SaveVersionInput) (newEtag : String) :
    Except String (SaveOutcome × BoardState) :=
  match cleanOrphanedFiles input.sceneJson with
  | .error e => .error e
  | .ok cleanedSceneJson =>
    match extractSearchableContent cleanedSceneJson with
    | .error e => .error e
    | .ok searchContent =>
      if etagConflict input.expectedEtag st.board.etag then
        .ok (.conflict st.board.etag, st)
      else if st.versions.any (fun v => v.version == st.board.versionNumber + 1) then
        .error "Unique constraint failed on the fields: (boardId, version)"
      else
        .ok (.ok (savedRow st input cleanedSceneJson) newEtag,
          savedState st input cleanedSceneJson searchContent newEtag)

/-- `restoreVersion` (boards service): fetch the target version, then call
`saveVersion` with its payload, a restore label, and no `expectedEtag`. -/
def restoreVersion (st : BoardState) (targetVersion : Nat) (userId : String)
    (newEtag : String) : Except String (SaveOutcome × BoardState) :=
  match st.versions.find? (fun v => v.version == targetVersion) with
  | none => Except.error "Version not found"
  | some oldVersion =>
    saveVersion st
      { userId := userId
        sceneJson := oldVersion.sceneJson
        appStateJson := oldVersion.appStateJson
        label := some ("Restored from v" ++ toString targetVersion)
        expectedEtag := none
        thumbnail := none } newEtag

/-- The response body of the cleanup endpoint (byte accounting of the
response is not modelled; no claim depends on it). -/
structure CleanupResult where
  cleaned : Bool
  filesRemoved : Nat

/-- The cleanup endpoint handler (`pages/api/boards/[id]/cleanup.ts`): read
the latest version, compute the orphaned file ids exactly as the orphan
collector does, and when any exist create a `BoardVersion` row at
`latestVersion.version + 1` with the cleaned scene.  The subsequent
`prisma.board.update` touches only `updatedAt`: `versionNumber`,
`currentVersionId` and `etag` are left as they were. -/
def cleanupHandler (st : BoardState) (userId : String) :
    Except String (CleanupResult × BoardState) :=
  match findLatestVersion st.versions with
  | none => .ok ({ cleaned := false, filesRemoved := 0 }, st)
  | some latestVersion =>
    let scene := latestVersion.sceneJson
    let filesOpt := jsField scene "files"
    if !truthyOpt filesOpt then .ok ({ cleaned := false, filesRemoved := 0 }, st)
    else
      let files := filesOpt.getD .null
      if (jsEntries files).length == 0 then
        .ok ({ cleaned := false, filesRemoved := 0 }, st)
      else
        match usedFileIdsOf scene with
        | .error e => .error e
        | .ok usedFileIds =>
          let allFileIds := (jsEntries files).map (fun p => p.1)
          let orphanedFileIds :=
            allFileIds.filter (fun k => !usedFileIds.any (fun u => jsEqStr u k))
          if orphanedFileIds.length == 0 then
            .ok ({ cleaned := false, filesRemoved := 0 }, st)
          else
            let cleanedFiles :=
              (jsEntries files).filter (fun p => usedFileIds.any (fun u => jsEqStr u p.1))
            let cleanedScene :=
              match scene with
              | .obj fs => JsValue.obj (jsSetField fs "files" (.obj cleanedFiles))
              | _ => scene
            if st.versions.any (fun v => v.version == latestVersion.version + 1) then
              .error "Unique constraint failed on the fields: (boardId, version)"
            else
              let row : VersionRow :=
                { id := st.nextRowId
                  version := latestVersion.version + 1
                  createdById := userId
                  sceneJson := cleanedScene
                  appStateJson := latestVersion.appStateJson
                  label := none
                  thumbnailUrl := none }
              .ok ({ cleaned := true, filesRemoved := orphanedFileIds.length },
                { board := st.board
                  versions := st.versions ++ [row]
                  nextRowId := st.nextRowId + 1 })

/-- Is the board's current-version pointer consistent with its latest
`BoardVersion` row (the invariant of the spec: `versionNumber` equals the
newest stored version number and `currentVersionId` names that row)? -/
def versionsConsistent (st : BoardState) : Bool :=
  match findLatestVersion st.versions with
  | none => true
  | some v => st.board.versionNumber == v.version && st.board.currentVersionId == v.id

/-- The version numbers of the stored rows in creation order. -/
def versionNumbers (st : BoardState) : List Nat :=
  st.versions.map (fun v => v.version)

/-- The mutable refs of the client autosave controller in `BoardEditor.tsx`
(`hasUnsavedChangesRef`, `wasEditingTextRef`, whether the
`cardSaveDebounceRef` timer is pending), plus the number of `saveToServer`
invocations that have started and not yet completed.  The `saveStatus` UI
state is never consulted by any trigger path and is not modelled. -/
structure ClientAutosaveState where
  hasUnsavedChanges : Bool
  wasEditingText : Bool
  debouncePending : Bool
  savesInFlight : Nat
deriving DecidableEq

/-- The events driving the controller: an `onChange` callback (with whether
the scene hash differs from the saved baseline and whether a text edit is
active), the 10s interval tick, the 300ms debounce timer firing, the manual
save action, and completion of an in-flight save. -/
inductive ClientEvent where
  | change (contentChanged : Bool) (editing : Bool)
  | intervalTick
  | debounceFire
  | manualSave
  | saveComplete (success : Bool)

/-- One step of the client autosave controller, transcribed from
`BoardEditor.tsx`:

* `change`: `handleChange` — a hash mismatch sets the dirty ref; finishing a
  text edit while dirty (re)arms the debounce timer; `wasEditingTextRef` is
  updated last.
* `intervalTick`: the `setInterval` body — starts `saveToServer` whenever
  the dirty ref is set (no in-flight check).
* `debounceFire`: the armed `setTimeout` body — starts `saveToServer`
  unconditionally (no in-flight check).
* `manualSave`: `handleManualSave` — starts `saveToServer` unconditionally.
* `saveComplete`: the tail of `saveToServer` — on success clears the dirty
  ref (and updates the etag/hash baselines, not modelled).

A started save is counted in `savesInFlight` until its completion event. -/
def clientStep (s : ClientAutosaveState) (e : ClientEvent) : ClientAutosaveState :=
  match e with
  | .change contentChanged editing =>
    let dirty := s.hasUnsavedChanges || contentChanged
    let pending :=
      if s.wasEditingText && !editing && dirty then true else s.debouncePending
    { s with
      hasUnsavedChanges := dirty
      debouncePending := pending
      wasEditingText := editing }
  | .intervalTick =>
    if s.hasUnsavedChanges then { s with savesInFlight := s.savesInFlight + 1 }
    else s
  | .debounceFire =>
    if s.debouncePending then
      { s with debouncePending := false, savesInFlight := s.savesInFlight + 1 }
    else s
  | .manualSave => { s with savesInFlight := s.savesInFlight + 1 }
  | .saveComplete success =>
    { s with
      savesInFlight := s.savesInFlight - 1
      hasUnsavedChanges := if success then false else s.hasUnsavedChanges }

/-- The controller state right after the board loads: clean, no timers, no
save in flight. -/
def clientInit : ClientAutosaveState :=
  { hasUnsavedChanges := false
    wasEditingText := false
    debouncePending := false
    savesInFlight := 0 }

/-- Run the controller over a sequence of events from the initial state. -/
def clientRun (events : List ClientEvent) : ClientAutosaveState :=
  events.foldl clientStep clientInit

/-! ## Specification helpers and worked fixtures

Definitions below this point are instrumentation for stating and checking
properties: scene constructors, well-typedness predicates, and the concrete
boards/payloads that the witnesses and counterexamples evaluate. -/

/-- A scene object with an element array and an attachment map, the shape
every persisted scene has. -/
def mkScene (els : List JsValue) (fs : List (String × JsValue)) : JsValue :=
  .obj [("elements", .arr els), ("files", .obj fs)]

/-- The attachment reference contributed by one element to `usedFileIds`:
`some fid` when the element has `type === "image"` and a truthy `fileId`
(its `isDeleted` flag plays no role in the source scan). -/
def elementFileRef (el : JsValue) : Option JsValue :=
  if tyIsImage (jsField el "type") && truthyOpt (jsField el "fileId") then
    some ((jsField el "fileId").getD .null)
  else none

/-- A single element is safe for text extraction: it is not `null` and, when
its markdown-card guard fires, the `markdown` value is a string (so
`markdown.replace` exists). -/
def elementMarkdownOk (el : JsValue) : Bool :=
  let cd := jsField el "customData"
  if truthyOpt (jsOptChain cd "isMarkdownCard") &&
      truthyOpt (jsOptChain cd "markdown") then
    match jsOptChain cd "markdown" with
    | some (.str _) => true
    | _ => false
  else true

/-- A single element is safe for text extraction: it is not `null` and its
markdown value, when the markdown-card guard fires, is a string. -/
def elementExtractSafe (el : JsValue) : Bool :=
  match el with
  | .null => false
  | _ => elementMarkdownOk el

/-- A payload is safe for text extraction: its `elements` value is falsy, a
string, or an array of extraction-safe elements. -/
def sceneExtractSafe (sceneJson : JsValue) : Bool :=
  let elemsOpt := jsField sceneJson "elements"
  if !truthyOpt elemsOpt then true
  else
    match elemsOpt.getD .null with
    | .arr els => els.all elementExtractSafe
    | .str _ => true
    | _ => false

/-- An empty scene: no elements, no attachment map. -/
def exEmptyScene : JsValue := .obj [("elements", .arr [])]

/-- A scene whose attachment map holds one file that no element references. -/
def exOrphanScene : JsValue :=
  .obj [("elements", .arr []), ("files", .obj [("a1", .str "x".toList)])]

/-- `exOrphanScene` after orphan collection: the unreferenced entry is gone. -/
def exCleanedOrphanScene : JsValue :=
  .obj [("elements", .arr []), ("files", .obj [])]

/-- A soft-deleted image element that still references file `a1`. -/
def exDeletedImageEl : JsValue :=
  .obj [("type", .str "image".toList), ("fileId", .str "a1".toList),
        ("isDeleted", .bool true)]

/-- A scene whose only reference to file `a1` comes from a soft-deleted image
element. -/
def exDeletedImageScene : JsValue :=
  .obj [("elements", .arr [exDeletedImageEl]),
        ("files", .obj [("a1", .str "blob".toList)])]

/-- A markdown card with content `hello`. -/
def exCardEl : JsValue :=
  .obj [("id", .str "md-1".toList), ("type", .str "rectangle".toList),
        ("customData", .obj [("isMarkdownCard", .bool true),
                             ("markdown", .str "hello".toList)])]

/-- The card's hidden-index mirror, identified only by the reserved
`mdsearch-` id convention (a legacy document, predating the explicit
marker): a plain text element carrying the same text. -/
def exHiddenEl : JsValue :=
  .obj [("id", .str "mdsearch-md-1".toList), ("type", .str "text".toList),
        ("text", .str "hello".toList)]

/-- The card's hidden-index mirror carrying the explicit `customData`
marker. -/
def exHiddenElMarked : JsValue :=
  .obj [("id", .str "mdsearch-md-1".toList), ("type", .str "text".toList),
        ("text", .str "hello".toList),
        ("customData", .obj [("isMarkdownSearchText", .bool true)])]

/-- A card plus its prefix-identified hidden-index mirror. -/
def exCardScene : JsValue := .obj [("elements", .arr [exCardEl, exHiddenEl])]

/-- A card plus its marker-identified hidden-index mirror. -/
def exCardSceneMarked : JsValue :=
  .obj [("elements", .arr [exCardEl, exHiddenElMarked])]

/-- A scene holding a markdown card whose `markdown` value is the number 5
(truthy but not a string). -/
def exBadMarkdownScene : JsValue :=
  .obj [("elements", .arr [.obj [("customData",
    .obj [("isMarkdownCard", .bool true), ("markdown", .num 5)])]])]

/-- A scene with a plain text element and a rich-text card whose embedded
JSON does not parse. -/
def exMixedScene : JsValue :=
  .obj [("elements", .arr [
    .obj [("type", .str "text".toList), ("text", .str "hi".toList)],
    .obj [("customData", .obj [("isRichTextCard", .bool true),
      ("richTextContent", .str "not json".toList)])]])]

/-- Sixty thousand letters: a text beyond the search-content cap. -/
def exBigText : List Char := List.replicate 60000 'a'

/-- A scene whose single text element exceeds the search-content cap. -/
def exBigScene : JsValue :=
  .obj [("elements", .arr [.obj [("type", .str "text".toList),
                                 ("text", .str exBigText)]])]

/-- A live (non-deleted) image element referencing file `a1`. -/
def exImgEl : JsValue :=
  .obj [("type", .str "image".toList), ("fileId", .str "a1".toList)]

/-- An attachment map with the referenced `a1` and the unreferenced `a2`. -/
def exTwoFiles : List (String × JsValue) :=
  [("a1", .str "x".toList), ("a2", .str "y".toList)]

/-- Version row 1 of the worked board: the empty scene. -/
def exRow1 : VersionRow :=
  { id := 1, version := 1, createdById := "u1", sceneJson := exEmptyScene
    appStateJson := none, label := none, thumbnailUrl := none }

/-- A board at version 1 whose single version row is `exRow1`. -/
def exState1 : BoardState :=
  { board := { versionNumber := 1, currentVersionId := 1, etag := "etag-1"
               searchContent := [], thumbnail := none }
    versions := [exRow1]
    nextRowId := 2 }

/-- A save input with no caller token over the empty scene. -/
def exSaveInput : SaveVersionInput :=
  { userId := "u1", sceneJson := exEmptyScene, appStateJson := none
    label := none, expectedEtag := none, thumbnail := none }

/-- A save input whose caller token is the empty string (supplied, and
different from any generated etag). -/
def exInputEmptyTok : SaveVersionInput :=
  { exSaveInput with expectedEtag := some "" }

/-- A save input carrying the stale non-empty token `zz`. -/
def exInputStaleTok : SaveVersionInput :=
  { exSaveInput with expectedEtag := some "zz" }

/-- A save input carrying the currently stored token of `exState1`. -/
def exInputMatchTok : SaveVersionInput :=
  { exSaveInput with expectedEtag := some "etag-1" }

/-- Version row 1 of the orphaned-attachment board. -/
def exOrphanRow : VersionRow :=
  { id := 1, version := 1, createdById := "u1", sceneJson := exOrphanScene
    appStateJson := none, label := none, thumbnailUrl := none }

/-- A board at version 1 whose latest (only) version carries an orphaned
attachment. -/
def exOrphanState : BoardState :=
  { board := { versionNumber := 1, currentVersionId := 1, etag := "etag-1"
               searchContent := [], thumbnail := none }
    versions := [exOrphanRow]
    nextRowId := 2 }

/-- The version row the cleanup endpoint creates on `exOrphanState`. -/
def exCleanupRow : VersionRow :=
  { id := 2, version := 2, createdById := "u1"
    sceneJson := exCleanedOrphanScene
    appStateJson := none, label := none, thumbnailUrl := none }

/-- `exOrphanState` after the cleanup endpoint ran: the new row exists but
the board row was not advanced. -/
def exCleanupState : BoardState :=
  { board := exOrphanState.board
    versions := [exOrphanRow, exCleanupRow]
    nextRowId := 3 }

/-- Version row 2 of the restore example: the empty scene at the head. -/
def exRestRow2 : VersionRow :=
  { id := 2, version := 2, createdById := "u1", sceneJson := exEmptyScene
    appStateJson := none, label := none, thumbnailUrl := none }

/-- The save input that `restoreVersion` builds when restoring version 1 of
the worked board. -/
def exRestoreInput : SaveVersionInput :=
  { userId := "u1", sceneJson := exOrphanScene, appStateJson := none
    label := some ("Restored from v" ++ toString 1), expectedEtag := none
    thumbnail := none }

/-- A consistent board at version 2 whose version 1 payload still carries an
orphaned attachment (as `createBoard` stores the initial payload without
orphan collection). -/
def exRestState : BoardState :=
  { board := { versionNumber := 2, currentVersionId := 2, etag := "etag-2"
               searchContent := [], thumbnail := none }
    versions := [exOrphanRow, exRestRow2]
    nextRowId := 3 }

/-! ## Theorems -/

theorem saveVersion_success (st : BoardState) (input : SaveVersionInput)
    (newEtag : String) (cs : JsValue) (sc : List Char)
    (hc : cleanOrphanedFiles input.sceneJson = .ok cs)
    (he : extractSearchableContent cs = .ok sc)
    (hconf : etagConflict input.expectedEtag st.board.etag = false)
    (hdup : st.versions.any (fun r => r.version == st.board.versionNumber + 1) = false) :
    saveVersion st input newEtag =
      .ok (.ok (savedRow st input cs) newEtag,
           savedState st input cs sc newEtag) := by
  simp [saveVersion, hc, he, hconf, hdup]

theorem saveVersion_conflict (st : BoardState) (input : SaveVersionInput)
    (newEtag : String) (cs : JsValue) (sc : List Char) (t : String)
    (hc : cleanOrphanedFiles input.sceneJson = .ok cs)
    (he : extractSearchableContent cs = .ok sc)
    (ht : input.expectedEtag = some t) (hne : t ≠ "")
    (hst : st.board.etag ≠ t) :
    saveVersion st input newEtag = .ok (.conflict st.board.etag, st) := by
  have hconf : etagConflict input.expectedEtag st.board.etag = true := by
    simp [etagConflict, ht, hne, hst]
  simp [saveVersion, hc, he, hconf]

theorem saveVersion_ok_inv {st : BoardState} {input : SaveVersionInput}
    {newEtag : String} {v : VersionRow} {e : String} {st' : BoardState}
    (h : saveVersion st input newEtag = .ok (.ok v e, st')) :
    ∃ cs sc,
      cleanOrphanedFiles input.sceneJson = .ok cs ∧
      extractSearchableContent cs = .ok sc ∧
      etagConflict input.expectedEtag st.board.etag = false ∧
      st.versions.any (fun r => r.version == st.board.versionNumber + 1) = false ∧
      v = savedRow st input cs ∧ e = newEtag ∧
      st' = savedState st input cs sc newEtag := by
  unfold saveVersion at h
  cases hc : cleanOrphanedFiles input.sceneJson with
  | error err => rw [hc] at h; simp at h
  | ok cs =>
    rw [hc] at h
    simp only [] at h
    cases he : extractSearchableContent cs with
    | error err => rw [he] at h; simp at h
    | ok sc =>
      rw [he] at h
      simp only [] at h
      by_cases hconf : etagConflict input.expectedEtag st.board.etag = true
      · rw [if_pos hconf] at h
        simp at h
      · rw [if_neg hconf] at h
        by_cases hdup :
            (st.versions.any fun r => r.version == st.board.versionNumber + 1) = true
        · rw [if_pos hdup] at h; simp at h
        · rw [if_neg hdup] at h
          simp only [Except.ok.injEq, Prod.mk.injEq, SaveOutcome.ok.injEq] at h
          refine ⟨cs, sc, ?_, ?_, ?_, ?_, ?_, ?_, ?_⟩ <;>
          first
          | exact hc
          | exact he
          | exact rfl
          | exact Bool.not_eq_true _ ▸ hconf
          | exact Bool.not_eq_true _ ▸ hdup
          | exact h.1.1.symm
          | exact h.1.2.symm
          | exact h.2.symm


/-- C3: for every successful save, the newly created version's number equals
the board's prior version number plus 1, the board is advanced to that
number, and the new row is appended to the history; consequently, when the
stored version numbers form the contiguous range `1..versionNumber` before
the save, they form the contiguous range `1..versionNumber+1` after it — the
numbers produced by successful saves have no gaps and no duplicates. -/
theorem save_version_numbers_monotonic
    (st : BoardState) (input : SaveVersionInput) (newEtag : String)
    (v : VersionRow) (e : String) (st' : BoardState)
    (h : saveVersion st input newEtag = .ok (.ok v e, st')) :
    v.version = st.board.versionNumber + 1 ∧
    st'.board.versionNumber = st.board.versionNumber + 1 ∧
    st'.versions = st.versions ++ [v] ∧
    (versionNumbers st = List.range' 1 st.board.versionNumber →
      versionNumbers st' = List.range' 1 st'.board.versionNumber) := by
  obtain ⟨cs, sc, hc, he, hconf, hdup, hv, hee, hst⟩ := saveVersion_ok_inv h
  subst hv hst
  refine ⟨rfl, rfl, rfl, ?_⟩
  intro hrange
  have hsplit : versionNumbers (savedState st input cs sc newEtag)
      = versionNumbers st ++ [st.board.versionNumber + 1] := by
    simp [versionNumbers, savedState, savedRow]
  rw [hsplit, hrange]
  have hconcat := @List.range'_concat 1 1 st.board.versionNumber
  simp only [Nat.one_mul] at hconcat
  rw [show (savedState st input cs sc newEtag).board.versionNumber
      = st.board.versionNumber + 1 from rfl, hconcat, Nat.add_comm 1]

/-- Witness for C3: on a consistent board at version 1, a save with no
caller token produces version 2 and the contiguous range `[1, 2]`. -/
theorem save_version_numbers_monotonic_witness :
    (savedRow exState1 exSaveInput exEmptyScene).version = 2 ∧
    versionNumbers (savedState exState1 exSaveInput exEmptyScene [] "etag-2") =
      List.range' 1 2 := by
  have h := save_version_numbers_monotonic exState1 exSaveInput "etag-2"
    (savedRow exState1 exSaveInput exEmptyScene) "etag-2"
    (savedState exState1 exSaveInput exEmptyScene [] "etag-2") rfl
  exact ⟨h.1, h.2.2.2 (by decide)⟩

/-- C1 counterexample: a caller token that is supplied and differs from the
stored token does not always produce a Conflict — the source guard
`if (expectedEtag && board.etag !== expectedEtag)` treats the supplied empty
string as absent, so this save writes a new version even though its token
`""` differs from the stored `"etag-1"`. -/
theorem save_accepts_differing_empty_token :
    exInputEmptyTok.expectedEtag = some "" ∧
    ("" : String) ≠ exState1.board.etag ∧
    saveVersion exState1 exInputEmptyTok "etag-2" =
      .ok (.ok (savedRow exState1 exInputEmptyTok exEmptyScene) "etag-2",
        savedState exState1 exInputEmptyTok exEmptyScene [] "etag-2") ∧
    (savedState exState1 exInputEmptyTok exEmptyScene [] "etag-2").versions.length
      = exState1.versions.length + 1 :=
  ⟨rfl, by decide, rfl, rfl⟩

/-- C1 (amended): for every save whose payload passes orphan collection and
text extraction and whose supplied caller token is non-empty and differs
from the stored token, the save writes nothing, leaves the board state
unchanged and returns Conflict carrying the currently stored token; and
after a save supplied with token `t` succeeds and produces the fresh token
`newEtag1`, a second save supplied with the now-stale `t ≠ newEtag1` returns
Conflict carrying `newEtag1` and leaves the post-save state unchanged. -/
theorem save_conflict_protocol :
    (∀ (st : BoardState) (input : SaveVersionInput) (newEtag : String)
        (cs : JsValue) (sc : List Char) (t : String),
        cleanOrphanedFiles input.sceneJson = .ok cs →
        extractSearchableContent cs = .ok sc →
        input.expectedEtag = some t → t ≠ "" → t ≠ st.board.etag →
        saveVersion st input newEtag = .ok (.conflict st.board.etag, st)) ∧
    (∀ (st st1 : BoardState) (input1 input2 : SaveVersionInput)
        (newEtag1 newEtag2 t : String) (v : VersionRow) (e : String)
        (cs : JsValue) (sc : List Char),
        input1.expectedEtag = some t →
        saveVersion st input1 newEtag1 = .ok (.ok v e, st1) →
        input2.expectedEtag = some t →
        cleanOrphanedFiles input2.sceneJson = .ok cs →
        extractSearchableContent cs = .ok sc →
        t ≠ "" → t ≠ newEtag1 →
        saveVersion st1 input2 newEtag2 = .ok (.conflict newEtag1, st1)) := by
  constructor
  · intro st input newEtag cs sc t hc he ht hne hst
    exact saveVersion_conflict st input newEtag cs sc t hc he ht hne (Ne.symm hst)
  · intro st st1 input1 input2 newEtag1 newEtag2 t v e cs sc ht1 h1 ht2 hc he hne hstale
    obtain ⟨cs1, sc1, _, _, _, _, _, _, hst1⟩ := saveVersion_ok_inv h1
    have hetag : st1.board.etag = newEtag1 := by rw [hst1]; rfl
    have hmain := saveVersion_conflict st1 input2 newEtag2 cs sc t hc he ht2 hne
      (by rw [hetag]; exact Ne.symm hstale)
    rw [hetag] at hmain
    exact hmain

/-- Witness for C1: a stale non-empty token on `exState1` yields Conflict
with the stored `"etag-1"` and no state change; after a matching-token save
produced `"etag-2"`, re-sending the stale `"etag-1"` yields Conflict carrying
`"etag-2"` and no state change. -/
theorem save_conflict_protocol_witness :
    saveVersion exState1 exInputStaleTok "etag-2" =
      .ok (.conflict "etag-1", exState1) ∧
    saveVersion (savedState exState1 exInputMatchTok exEmptyScene [] "etag-2")
        exInputMatchTok "etag-3" =
      .ok (.conflict "etag-2",
        savedState exState1 exInputMatchTok exEmptyScene [] "etag-2") := by
  constructor
  · exact save_conflict_protocol.1 exState1 exInputStaleTok "etag-2" exEmptyScene []
      "zz" rfl rfl rfl (by decide) (by decide)
  · exact save_conflict_protocol.2 exState1
      (savedState exState1 exInputMatchTok exEmptyScene [] "etag-2")
      exInputMatchTok exInputMatchTok "etag-2" "etag-3" "etag-1"
      (savedRow exState1 exInputMatchTok exEmptyScene) "etag-2" exEmptyScene []
      rfl rfl rfl rfl rfl (by decide) (by decide)

/-- C2 (code bug evidence): the pointer/latest-row invariant is maintained
by the save path but not by the cleanup endpoint.  On a consistent board at
version 1 whose only version carries an orphaned attachment, the cleanup
endpoint creates version row 2 yet leaves `board.versionNumber = 1` and the
`currentVersionId` pointing at row 1, so the invariant no longer holds — and
the next save then computes version `1 + 1 = 2` and dies on the
`(boardId, version)` unique constraint. -/
theorem cleanup_breaks_version_pointer :
    versionsConsistent exOrphanState = true ∧
    cleanupHandler exOrphanState "u1" =
      .ok ({ cleaned := true, filesRemoved := 1 }, exCleanupState) ∧
    versionNumbers exCleanupState = [1, 2] ∧
    exCleanupState.board.versionNumber = 1 ∧
    exCleanupState.board.currentVersionId = 1 ∧
    versionsConsistent exCleanupState = false ∧
    saveVersion exCleanupState exSaveInput "etag-2" =
      .error "Unique constraint failed on the fields: (boardId, version)" :=
  ⟨by decide, rfl, by decide, rfl, rfl, by decide, rfl⟩

/-- C6 (code bug evidence): a hidden-index node identified only by the
reserved `mdsearch-` id convention is classified as a search-text element by
the repository's own classifier (`isSearchText`), yet
`extractSearchableContent` skips only marker-identified nodes: with the card
and its prefix-identified mirror both present, the mirror's text `hello`
appears twice in the composed searchable text, while the marker-identified
variant of the same scene yields it once. -/
theorem hidden_index_text_duplicated :
    isSearchText exHiddenEl = true ∧
    extractSearchableContent exCardScene = .ok "hello hello".toList ∧
    extractSearchableContent exCardSceneMarked = .ok "hello".toList :=
  ⟨rfl, rfl, rfl⟩

/-- C9 counterexample: a reachable run of the autosave controller with two
saves in flight at once — one mutation, then two interval ticks before any
completion: the first tick starts a save, the dirty flag stays set while it
is in flight, and the second tick starts a second concurrent save. -/
theorem autosave_two_saves_in_flight :
    (clientRun [.change true false, .intervalTick]).savesInFlight = 1 ∧
    (clientRun [.change true false, .intervalTick, .intervalTick]).savesInFlight = 2 := by
  decide

/-- C9 (amended): the controller does not enforce a single save in flight —
no trigger path consults the in-flight count.  An interval tick starts a
save exactly when the dirty flag is set, a debounce firing exactly when the
debounce timer is pending, and a manual save always, each regardless of how
many saves are already in flight. -/
theorem autosave_triggers_ignore_inflight (s : ClientAutosaveState) :
    ((clientStep s .intervalTick).savesInFlight =
      s.savesInFlight + (if s.hasUnsavedChanges then 1 else 0)) ∧
    ((clientStep s .debounceFire).savesInFlight =
      s.savesInFlight + (if s.debouncePending then 1 else 0)) ∧
    ((clientStep s .manualSave).savesInFlight = s.savesInFlight + 1) := by
  refine ⟨?_, ?_, rfl⟩
  · cases hs : s.hasUnsavedChanges <;> simp [clientStep, hs]
  · cases hs : s.debouncePending <;> simp [clientStep, hs]

theorem jsEqStr_iff (u : JsValue) (k : String) :
    jsEqStr u k = true ↔ u = .str k.toList := by
  cases u <;> simp [jsEqStr]

theorem imageFileIdsGo_cons (el : JsValue) (hel : el ≠ .null)
    (acc : List JsValue) (rest : List JsValue) :
    imageFileIdsGo acc (el :: rest) =
      imageFileIdsGo
        (if tyIsImage (jsField el "type") && truthyOpt (jsField el "fileId") then
          acc ++ [(jsField el "fileId").getD .null]
        else acc) rest := by
  cases el <;> first | exact absurd rfl hel | rfl

theorem imageFileIdsGo_mem (els : List JsValue) :
    ∀ (acc used : List JsValue), imageFileIdsGo acc els = .ok used →
      ∀ u, u ∈ used ↔ u ∈ acc ∨ ∃ el ∈ els, elementFileRef el = some u := by
  induction els with
  | nil =>
    intro acc used h u
    simp only [imageFileIdsGo, Except.ok.injEq] at h
    subst h
    simp
  | cons el rest ih =>
    intro acc used h u
    have hel : el ≠ .null := by
      intro hn
      subst hn
      simp [imageFileIdsGo] at h
    rw [imageFileIdsGo_cons el hel] at h
    rw [ih _ used h u]
    by_cases hg : (tyIsImage (jsField el "type") && truthyOpt (jsField el "fileId")) = true
    · rw [if_pos hg]
      have hfe : elementFileRef el = some ((jsField el "fileId").getD .null) := by
        simp [elementFileRef, hg]
      constructor
      · rintro (hin | ⟨x, hx, hfx⟩)
        · rcases List.mem_append.mp hin with hin | hin
          · exact Or.inl hin
          · have hu : u = (jsField el "fileId").getD .null := by simpa using hin
            exact Or.inr ⟨el, List.mem_cons_self el rest, by rw [hu]; exact hfe⟩
        · exact Or.inr ⟨x, List.mem_cons_of_mem _ hx, hfx⟩
      · rintro (hin | ⟨x, hx, hfx⟩)
        · exact Or.inl (List.mem_append.mpr (Or.inl hin))
        · rcases List.mem_cons.mp hx with hx | hx
          · subst hx
            rw [hfe] at hfx
            have hu := (Option.some.inj hfx).symm
            refine Or.inl (List.mem_append.mpr (Or.inr ?_))
            rw [hu]
            exact List.mem_singleton.mpr rfl
          · exact Or.inr ⟨x, hx, hfx⟩
    · rw [if_neg hg]
      have hfe : elementFileRef el = none := by
        simp only [elementFileRef, if_neg hg]
      constructor
      · rintro (hin | ⟨x, hx, hfx⟩)
        · exact Or.inl hin
        · exact Or.inr ⟨x, List.mem_cons_of_mem _ hx, hfx⟩
      · rintro (hin | ⟨x, hx, hfx⟩)
        · exact Or.inl hin
        · rcases List.mem_cons.mp hx with hx | hx
          · subst hx
            rw [hfe] at hfx
            cases hfx
          · exact Or.inr ⟨x, hx, hfx⟩

theorem cleanOrphanedFiles_mkScene (els : List JsValue)
    (fs : List (String × JsValue)) (used : List JsValue)
    (hne : fs ≠ [])
    (hused : imageFileIds els = .ok used) :
    cleanOrphanedFiles (mkScene els fs) =
      .ok (mkScene els (fs.filter (fun p => used.any (fun u => jsEqStr u p.1)))) := by
  have h1 : jsField (mkScene els fs) "files" = some (.obj fs) := rfl
  have h2 : jsField (mkScene els fs) "elements" = some (.arr els) := rfl
  have h3 : (fs.length == 0) = false := by
    cases fs with
    | nil => exact absurd rfl hne
    | cons a l => rfl
  have h4 : usedFileIdsOf (mkScene els fs) = .ok used := by
    unfold usedFileIdsOf
    rw [h2]
    simp [truthyOpt, truthy, jsIterate, hused]
  unfold cleanOrphanedFiles
  rw [h1]
  simp only [truthyOpt, truthy, Bool.not_true, if_false, Option.getD, jsEntries, h3,
    h4, if_true]
  rfl

/-- C4 counterexample: the orphan collector does not restrict the reference
scan to non-deleted nodes.  In a scene whose only reference to file `a1`
comes from a soft-deleted image element, the collector keeps `a1` (the
payload is returned unchanged), although no non-deleted node references
it — contradicting the claim that exactly the ids referenced by non-deleted
nodes are kept and all others dropped. -/
theorem orphan_collector_ignores_deleted_flag :
    jsField exDeletedImageEl "isDeleted" = some (.bool true) ∧
    jsField exDeletedImageScene "elements" = some (.arr [exDeletedImageEl]) ∧
    cleanOrphanedFiles exDeletedImageScene = .ok exDeletedImageScene ∧
    jsField exDeletedImageScene "files" =
      some (.obj [("a1", .str "blob".toList)]) :=
  ⟨rfl, rfl, rfl, rfl⟩

/-- C4 (amended): for every persisted scene, the orphan collector keeps
exactly the attachment ids referenced by attachment-bearing nodes —
elements with `type === "image"` and a truthy `fileId` — regardless of
their `isDeleted` flag: an entry of the attachment map survives collection
precisely when some image element (deleted or not) references its key. -/
theorem orphan_collector_keeps_image_referenced
    (els : List JsValue) (fs : List (String × JsValue)) (used : List JsValue)
    (hne : fs ≠ []) (hused : imageFileIds els = .ok used) :
    cleanOrphanedFiles (mkScene els fs) =
      .ok (mkScene els (fs.filter (fun p => used.any (fun u => jsEqStr u p.1)))) ∧
    ∀ k v, (k, v) ∈ fs.filter (fun p => used.any (fun u => jsEqStr u p.1)) ↔
      ((k, v) ∈ fs ∧ ∃ el ∈ els, elementFileRef el = some (.str k.toList)) := by
  refine ⟨cleanOrphanedFiles_mkScene els fs used hne hused, ?_⟩
  intro k v
  rw [List.mem_filter]
  have hany : (used.any (fun u => jsEqStr u k) = true) ↔
      (.str k.toList) ∈ used := by
    rw [List.any_eq_true]
    constructor
    · rintro ⟨u, hu, he⟩
      rw [jsEqStr_iff] at he
      exact he ▸ hu
    · intro hm
      exact ⟨_, hm, (jsEqStr_iff _ k).mpr rfl⟩
  have hmem := imageFileIdsGo_mem els [] used hused (.str k.toList)
  simp only [List.not_mem_nil, false_or] at hmem
  constructor
  · rintro ⟨hkv, hp⟩
    exact ⟨hkv, hmem.mp (hany.mp hp)⟩
  · rintro ⟨hkv, hp⟩
    exact ⟨hkv, hany.mpr (hmem.mpr hp)⟩

/-- Witness for C4 (amended): a scene referencing `a1` from an image element
while `a2` sits unreferenced keeps exactly `a1`; membership in the kept map
coincides with being image-referenced. -/
theorem orphan_collector_keeps_image_referenced_witness :
    cleanOrphanedFiles (mkScene [exImgEl] exTwoFiles) =
      .ok (mkScene [exImgEl]
        (exTwoFiles.filter (fun p =>
          [JsValue.str "a1".toList].any (fun u => jsEqStr u p.1)))) ∧
    (("a1", JsValue.str "x".toList) ∈ exTwoFiles ∧
      ∃ el ∈ [exImgEl], elementFileRef el = some (.str "a1".toList)) := by
  have h := orphan_collector_keeps_image_referenced [exImgEl] exTwoFiles
    [JsValue.str "a1".toList] (by simp [exTwoFiles]) rfl
  refine ⟨h.1, (h.2 "a1" (JsValue.str "x".toList)).mp ?_⟩
  exact List.mem_cons_self _ _

theorem jsLookup_cons (p : String × JsValue) (fs : List (String × JsValue))
    (k : String) :
    jsLookup (p :: fs) k = if p.1 == k then some p.2 else jsLookup fs k := by
  unfold jsLookup
  simp only [List.find?_cons]
  cases hp : (p.1 == k) with
  | true => simp
  | false => simp

theorem jsSetField_cons (p : String × JsValue) (fs : List (String × JsValue))
    (k : String) (v : JsValue) :
    jsSetField (p :: fs) k v =
      (if p.1 == k then (p.1, v) else p) :: jsSetField fs k v := rfl

theorem jsLookup_setField_self (fs : List (String × JsValue)) (k : String)
    (v w : JsValue) (h : jsLookup fs k = some w) :
    jsLookup (jsSetField fs k v) k = some v := by
  induction fs with
  | nil => simp [jsLookup] at h
  | cons p fs ih =>
    rw [jsLookup_cons] at h
    cases hp : (p.1 == k) with
    | true => simp [jsSetField_cons, hp, jsLookup_cons]
    | false =>
      rw [hp] at h
      simp only [if_false, Bool.false_eq_true] at h
      simp [jsSetField_cons, hp, jsLookup_cons, ih h]

theorem jsLookup_setField_ne (fs : List (String × JsValue)) (k k' : String)
    (v : JsValue) (h : k' ≠ k) :
    jsLookup (jsSetField fs k v) k' = jsLookup fs k' := by
  induction fs with
  | nil => rfl
  | cons p fs ih =>
    cases hp : (p.1 == k) with
    | true =>
      have hpk : p.1 = k := by simpa using hp
      have hp' : (p.1 == k') = false := by
        rw [hpk]
        simpa using fun hh => absurd hh.symm h
      simp [jsSetField_cons, hp, jsLookup_cons, hp', ih]
    | false =>
      cases hq : (p.1 == k') with
      | true => simp [jsSetField_cons, hp, jsLookup_cons, hq]
      | false => simp [jsSetField_cons, hp, jsLookup_cons, hq, ih]

theorem jsSetField_setField (fs : List (String × JsValue)) (k : String)
    (v v' : JsValue) :
    jsSetField (jsSetField fs k v) k v' = jsSetField fs k v' := by
  induction fs with
  | nil => rfl
  | cons p fs ih =>
    cases hp : (p.1 == k) with
    | true => simp [jsSetField_cons, hp, ih]
    | false => simp [jsSetField_cons, hp, ih]

theorem filter_self_idem {α : Type} (p : α → Bool) (l : List α) :
    (l.filter p).filter p = l.filter p := by
  induction l with
  | nil => rfl
  | cons a l ih =>
    by_cases h : p a = true
    · simp [List.filter_cons, h, ih]
    · simp [List.filter_cons, h, ih]

theorem jsEntries_obj (fs : List (String × JsValue)) :
    jsEntries (.obj fs) = fs := rfl

theorem usedFileIdsOf_setFiles (fs : List (String × JsValue)) (files' : JsValue) :
    usedFileIdsOf (.obj (jsSetField fs "files" files')) =
      usedFileIdsOf (.obj fs) := by
  unfold usedFileIdsOf
  have he : jsField (JsValue.obj (jsSetField fs "files" files')) "elements" =
      jsField (JsValue.obj fs) "elements" := by
    simp only [jsField]
    exact jsLookup_setField_ne fs "files" "elements" files' (by decide)
  rw [he]

/-- C5: orphan collection is idempotent — composing `cleanOrphanedFiles` with
itself (errors propagating as the thrown exception does) equals one run —
and a successful run differs from its input only in the `files` field: every
other field, in particular `elements`, is unchanged, so no node is modified
or removed. -/
theorem orphan_collection_idempotent (p : JsValue) :
    (cleanOrphanedFiles p).bind cleanOrphanedFiles = cleanOrphanedFiles p ∧
    (∀ q, cleanOrphanedFiles p = .ok q →
      ∀ k, k ≠ "files" → jsField q k = jsField p k) := by
  by_cases h1 : truthyOpt (jsField p "files") = true
  case neg =>
    rw [Bool.not_eq_true] at h1
    have hp : cleanOrphanedFiles p = .ok p := by
      unfold cleanOrphanedFiles
      simp [h1]
    constructor
    · rw [hp]
      exact hp
    · intro q hq k _
      rw [hp] at hq
      cases hq
      rfl
  case pos =>
    obtain ⟨files, hfl⟩ : ∃ f, jsField p "files" = some f := by
      cases hf : jsField p "files" with
      | none => rw [hf] at h1; simp [truthyOpt] at h1
      | some f => exact ⟨f, rfl⟩
    have htru : truthy files = true := by
      rw [hfl] at h1
      simpa [truthyOpt] using h1
    by_cases h2 : ((jsEntries files).length == 0) = true
    · have hp : cleanOrphanedFiles p = .ok p := by
        unfold cleanOrphanedFiles
        rw [hfl]
        simp [truthyOpt, htru, h2]
      constructor
      · rw [hp]
        exact hp
      · intro q hq k _
        rw [hp] at hq
        cases hq
        rfl
    · cases hur : usedFileIdsOf p with
      | error e =>
        have hp : cleanOrphanedFiles p = .error e := by
          unfold cleanOrphanedFiles
          rw [hfl]
          simp [truthyOpt, htru, h2, hur]
        constructor
        · rw [hp]
          rfl
        · intro q hq k _
          rw [hp] at hq
          cases hq
      | ok used =>
        obtain ⟨fs, rfl⟩ : ∃ fs, p = .obj fs := by
          cases p with
          | obj fs => exact ⟨fs, rfl⟩
          | null => cases hfl
          | bool b => cases hfl
          | num n => cases hfl
          | str s => cases hfl
          | arr xs => cases hfl
        have hflk : jsLookup fs "files" = some files := hfl
        have hp : cleanOrphanedFiles (.obj fs) =
            .ok (.obj (jsSetField fs "files" (.obj ((jsEntries files).filter
              (fun q => used.any (fun u => jsEqStr u q.1)))))) := by
          unfold cleanOrphanedFiles
          rw [show jsField (JsValue.obj fs) "files" = some files from hfl]
          simp [truthyOpt, htru, h2, hur]
        constructor
        · rw [hp]
          show cleanOrphanedFiles _ = _
          have hfl2 : jsField (JsValue.obj (jsSetField fs "files"
              (.obj ((jsEntries files).filter
                (fun q => used.any (fun u => jsEqStr u q.1)))))) "files" =
              some (.obj ((jsEntries files).filter
                (fun q => used.any (fun u => jsEqStr u q.1)))) := by
            simp only [jsField]
            exact jsLookup_setField_self fs "files" _ files hflk
          unfold cleanOrphanedFiles
          rw [hfl2]
          simp only [Option.getD, jsEntries_obj]
          by_cases h3 : ((((jsEntries files).filter
              (fun q => used.any (fun u => jsEqStr u q.1))).length == 0) = true)
          · rw [if_pos h3, ite_self]
          · have hur2 : usedFileIdsOf (.obj (jsSetField fs "files"
                (.obj ((jsEntries files).filter
                  (fun q => used.any (fun u => jsEqStr u q.1)))))) = .ok used := by
              rw [usedFileIdsOf_setFiles]
              exact hur
            rw [if_neg h3, hur2]
            simp only []
            rw [filter_self_idem, jsSetField_setField, ite_self]
        · intro q hq k hk
          rw [hp] at hq
          cases hq
          simp only [jsField]
          exact jsLookup_setField_ne fs "files" k _ hk

/-- Witness for C5: a run over the orphaned-attachment scene composes to
itself and leaves the `elements` field untouched. -/
theorem orphan_collection_idempotent_witness :
    (cleanOrphanedFiles exOrphanScene).bind cleanOrphanedFiles =
      cleanOrphanedFiles exOrphanScene ∧
    jsField exCleanedOrphanScene "elements" = jsField exOrphanScene "elements" := by
  have h := orphan_collection_idempotent exOrphanScene
  exact ⟨h.1, h.2 exCleanedOrphanScene rfl "elements" (by decide)⟩

theorem extractElementParts_nonnull (parts : List (List Char)) (el : JsValue)
    (hel : el ≠ .null) :
    extractElementParts parts el = extractElementPartsBody parts el := by
  cases el <;> first | exact absurd rfl hel | rfl

theorem elementExtractSafe_split (el : JsValue)
    (h : elementExtractSafe el = true) :
    el ≠ .null ∧ elementMarkdownOk el = true := by
  cases el with
  | null => exact absurd h (by simp [elementExtractSafe])
  | bool b => exact ⟨fun hh => JsValue.noConfusion hh, h⟩
  | num n => exact ⟨fun hh => JsValue.noConfusion hh, h⟩
  | str s => exact ⟨fun hh => JsValue.noConfusion hh, h⟩
  | arr xs => exact ⟨fun hh => JsValue.noConfusion hh, h⟩
  | obj fs => exact ⟨fun hh => JsValue.noConfusion hh, h⟩

theorem extractElementPartsBody_safe (parts : List (List Char)) (el : JsValue)
    (hmd : elementMarkdownOk el = true) :
    ∃ parts', extractElementPartsBody parts el = .ok parts' := by
  cases hb : extractElementPartsBody parts el with
  | ok p => exact ⟨p, rfl⟩
  | error e =>
    exfalso
    unfold extractElementPartsBody at hb
    by_cases hd : truthyOpt (jsField el "isDeleted") = true
    · rw [if_pos hd] at hb; cases hb
    · rw [if_neg hd] at hb
      by_cases hs : (truthyOpt (jsOptChain (jsField el "customData") "isMarkdownSearchText") ||
          truthyOpt (jsOptChain (jsField el "customData") "isRichTextSearchText")) = true
      · rw [if_pos hs] at hb; cases hb
      · rw [if_neg hs] at hb
        dsimp only [] at hb
        by_cases hm : (truthyOpt (jsOptChain (jsField el "customData") "isMarkdownCard") &&
            truthyOpt (jsOptChain (jsField el "customData") "markdown")) = true
        · unfold elementMarkdownOk at hmd
          rw [if_pos hm] at hmd
          cases hmk : jsOptChain (jsField el "customData") "markdown" with
          | none => rw [hmk] at hmd; cases hmd
          | some w =>
            rw [hmk] at hmd
            rw [if_pos hm, hmk] at hb
            cases w with
            | str s => simp at hb
            | null => cases hmd
            | bool b => cases hmd
            | num n => cases hmd
            | arr xs => cases hmd
            | obj fs => cases hmd
        · rw [if_neg hm] at hb
          simp at hb

theorem extractPartsGo_safe :
    ∀ (els : List JsValue), els.all elementExtractSafe = true →
      ∀ parts, ∃ parts', extractPartsGo parts els = .ok parts' := by
  intro els
  induction els with
  | nil => exact fun _ parts => ⟨parts, rfl⟩
  | cons el rest ih =>
    intro hsafe parts
    rw [List.all_cons, Bool.and_eq_true] at hsafe
    obtain ⟨hel, hmd⟩ := elementExtractSafe_split el hsafe.1
    obtain ⟨p1, hp1⟩ := extractElementPartsBody_safe parts el hmd
    obtain ⟨p2, hp2⟩ := ih hsafe.2 p1
    refine ⟨p2, ?_⟩
    unfold extractPartsGo
    rw [extractElementParts_nonnull parts el hel, hp1]
    exact hp2

/-- C7 (amended): text extraction is total on every payload whose `elements`
value is falsy, a string, or an array of non-`null` nodes whose truthy
markdown-card values are strings — on such payloads it never throws, and in
particular unparseable rich-text JSON degrades to an empty contribution for
that node (the rich-text branch catches its own failures).  A truthy
non-string `markdown` value, however, escapes this guarantee: there
`markdown.replace` raises a TypeError that aborts the whole save. -/
theorem extraction_total_on_safe_payloads (sceneJson : JsValue)
    (h : sceneExtractSafe sceneJson = true) :
    ∃ s, extractSearchableContent sceneJson = .ok s := by
  unfold sceneExtractSafe at h
  by_cases he : truthyOpt (jsField sceneJson "elements") = true
  case neg =>
    refine ⟨[], ?_⟩
    rw [Bool.not_eq_true] at he
    unfold extractSearchableContent extractFullText
    simp only [he, Bool.not_false, if_true]
    rfl
  case pos =>
    simp only [he, Bool.not_true, Bool.false_eq_true, if_false] at h
    cases hv : (jsField sceneJson "elements").getD .null with
    | arr els =>
      rw [hv] at h
      obtain ⟨parts, hp⟩ := extractPartsGo_safe els h []
      have hfull : extractFullText sceneJson =
          .ok (jsTrim (collapseWs (List.intercalate [' '] parts))) := by
        unfold extractFullText
        dsimp only []
        rw [hv]
        simp [he, jsIterate, hp]
      exact ⟨_, by unfold extractSearchableContent; rw [hfull]; rfl⟩
    | str s0 =>
      have hall : (s0.map (fun c => JsValue.str [c])).all elementExtractSafe = true := by
        rw [List.all_eq_true]
        intro x hx
        rw [List.mem_map] at hx
        obtain ⟨c, _, rfl⟩ := hx
        rfl
      obtain ⟨parts, hp⟩ := extractPartsGo_safe _ hall []
      have hfull : extractFullText sceneJson =
          .ok (jsTrim (collapseWs (List.intercalate [' '] parts))) := by
        unfold extractFullText
        dsimp only []
        rw [hv]
        simp [he, jsIterate, hp]
      exact ⟨_, by unfold extractSearchableContent; rw [hfull]; rfl⟩
    | null => rw [hv] at h; simp at h
    | bool b => rw [hv] at h; simp at h
    | num n => rw [hv] at h; simp at h
    | obj fs => rw [hv] at h; simp at h

/-- Witness for C7 (amended): a payload with a plain text element and a
rich-text card whose embedded JSON does not parse is extraction-safe, and
extraction indeed succeeds on it (the malformed card degrades to no
contribution: the result is just `hi`). -/
theorem extraction_total_on_safe_payloads_witness :
    sceneExtractSafe exMixedScene = true ∧
    (∃ s, extractSearchableContent exMixedScene = .ok s) ∧
    extractSearchableContent exMixedScene = .ok "hi".toList :=
  ⟨rfl, extraction_total_on_safe_payloads exMixedScene rfl, rfl⟩

/-- C7 counterexample: extraction is not total on every payload — a truthy
non-string `markdown` value reaches `markdown.replace(...)`, which throws a
TypeError that is not caught anywhere in `extractSearchableContent`, so the
whole save aborts (here: `saveVersion` on a consistent board returns the
thrown error and writes nothing). -/
theorem extraction_throws_on_nonstring_markdown :
    extractSearchableContent exBadMarkdownScene =
      .error "TypeError: markdown.replace is not a function" ∧
    saveVersion exState1
      { userId := "u1", sceneJson := exBadMarkdownScene, appStateJson := none
        label := none, expectedEtag := none, thumbnail := none } "etag-2" =
      .error "TypeError: markdown.replace is not a function" :=
  ⟨rfl, rfl⟩

/-- C8: the extractor's output never exceeds the fixed 50,000-character
ceiling, and whenever the combined normalized text exceeds the ceiling the
output is its 50,000-character truncation, of exactly the ceiling length
(the oversize case is logged via `console.warn`, not surfaced as an
error). -/
theorem extraction_output_capped (sceneJson : JsValue) :
    (∀ s, extractSearchableContent sceneJson = .ok s →
      s.length ≤ MAX_SEARCH_CONTENT_LENGTH) ∧
    (∀ t, extractFullText sceneJson = .ok t →
      MAX_SEARCH_CONTENT_LENGTH < t.length →
      extractSearchableContent sceneJson = .ok (t.take MAX_SEARCH_CONTENT_LENGTH) ∧
      (t.take MAX_SEARCH_CONTENT_LENGTH).length = MAX_SEARCH_CONTENT_LENGTH) := by
  constructor
  · intro s hs
    unfold extractSearchableContent at hs
    cases hf : extractFullText sceneJson with
    | error e => rw [hf] at hs; cases hs
    | ok t =>
      rw [hf] at hs
      simp only [Except.map, Except.ok.injEq] at hs
      by_cases hlen : MAX_SEARCH_CONTENT_LENGTH < t.length
      · rw [if_pos hlen] at hs
        rw [← hs]
        simp [List.length_take]
      · rw [if_neg hlen] at hs
        rw [← hs]
        omega
  · intro t ht hlen
    constructor
    · unfold extractSearchableContent
      rw [ht]
      simp only [Except.map]
      rw [if_pos hlen]
    · rw [List.length_take]
      omega

theorem collapseWsGo_no_ws (l : List Char) (h : ∀ c ∈ l, isWsChar c = false) :
    ∀ b, collapseWsGo b l = l := by
  induction l with
  | nil => intro b; rfl
  | cons c rest ih =>
    intro b
    have hc := h c (List.mem_cons_self c rest)
    unfold collapseWsGo
    rw [hc]
    simp only [Bool.false_eq_true, if_false]
    rw [ih (fun x hx => h x (List.mem_cons_of_mem _ hx)) false]

theorem dropWhile_no_ws (l : List Char) (h : ∀ c ∈ l, isWsChar c = false) :
    l.dropWhile isWsChar = l := by
  cases l with
  | nil => rfl
  | cons c rest =>
    rw [List.dropWhile_cons, h c (List.mem_cons_self c rest)]
    simp

theorem jsTrim_no_ws (l : List Char) (h : ∀ c ∈ l, isWsChar c = false) :
    jsTrim l = l := by
  unfold jsTrim
  rw [dropWhile_no_ws l h,
    dropWhile_no_ws l.reverse (fun c hc => h c (List.mem_reverse.mp hc)),
    List.reverse_reverse]

theorem exBigText_no_ws : ∀ c ∈ exBigText, isWsChar c = false := by
  intro c hc
  have : c = 'a' := (List.eq_of_mem_replicate hc)
  rw [this]
  rfl

theorem exBigScene_fullText : extractFullText exBigScene = .ok exBigText := by
  have h1 : extractPartsGo []
      [.obj [("type", .str "text".toList), ("text", .str exBigText)]] =
      .ok [exBigText] := rfl
  have h2 : List.intercalate [' '] [exBigText] = exBigText := by
    simp [List.intercalate]
  unfold extractFullText exBigScene
  dsimp only []
  rw [show jsField (JsValue.obj [("elements", JsValue.arr
      [.obj [("type", .str "text".toList), ("text", .str exBigText)]])]) "elements"
      = some (JsValue.arr [.obj [("type", .str "text".toList),
        ("text", .str exBigText)]]) from rfl]
  simp only [truthyOpt, truthy, Bool.not_true, Bool.false_eq_true, if_false,
    Option.getD, jsIterate]
  rw [h1]
  dsimp only []
  rw [h2, collapseWs, collapseWsGo_no_ws exBigText exBigText_no_ws,
    jsTrim_no_ws exBigText exBigText_no_ws]

/-- Witness for C8: the sixty-thousand-letter scene exceeds the ceiling; its
extraction output is the exact 50,000-character truncation. -/
theorem extraction_output_capped_witness :
    MAX_SEARCH_CONTENT_LENGTH < exBigText.length ∧
    extractSearchableContent exBigScene =
      .ok (exBigText.take MAX_SEARCH_CONTENT_LENGTH) ∧
    (exBigText.take MAX_SEARCH_CONTENT_LENGTH).length = MAX_SEARCH_CONTENT_LENGTH := by
  have hlen : MAX_SEARCH_CONTENT_LENGTH < exBigText.length := by
    unfold exBigText MAX_SEARCH_CONTENT_LENGTH
    rw [List.length_replicate]
    norm_num
  have h := (extraction_output_capped exBigScene).2 exBigText exBigScene_fullText hlen
  exact ⟨hlen, h.1, h.2⟩

theorem find?_append_of_found {α : Type} (p : α → Bool) (l l2 : List α) (r : α)
    (h : l.find? p = some r) : (l ++ l2).find? p = some r := by
  induction l with
  | nil => simp [List.find?] at h
  | cons a l ih =>
    rw [List.find?_cons] at h
    cases hp : p a with
    | true =>
      rw [hp] at h
      rw [List.cons_append, List.find?_cons, hp]
      exact h
    | false =>
      rw [hp] at h
      rw [List.cons_append, List.find?_cons, hp]
      exact ih h

/-- C10 counterexample: restore does not store version `k`'s payload
verbatim.  `restoreVersion` feeds the historical payload back through
`saveVersion`, which re-runs orphan collection, so restoring version 1 of a
board whose initial payload still carries an orphaned attachment (as
`createBoard` stores it un-collected) produces head version 3 whose payload
is the collected — different — scene, while version 1 itself stays
fetchable and unchanged. -/
theorem restore_reruns_orphan_collection :
    restoreVersion exRestState 1 "u1" "etag-3" =
      .ok (.ok (savedRow exRestState exRestoreInput exCleanedOrphanScene) "etag-3",
           savedState exRestState exRestoreInput exCleanedOrphanScene [] "etag-3") ∧
    (savedRow exRestState exRestoreInput exCleanedOrphanScene).version = 3 ∧
    (savedRow exRestState exRestoreInput exCleanedOrphanScene).sceneJson =
      exCleanedOrphanScene ∧
    getBoardVersion exRestState 1 = some exOrphanRow ∧
    exCleanedOrphanScene ≠ exOrphanRow.sceneJson :=
  ⟨rfl, rfl, rfl, rfl, by simp [exCleanedOrphanScene, exOrphanRow, exOrphanScene]⟩

/-- C10 (amended): restoring version `k` of a board at version `n` (when the
transaction can complete: `k` exists, the orphan-collected payload extracts,
and no row already carries `n+1`) appends a new head version numbered `n+1`
whose payload is the orphan-collected payload of version `k` — equal to
version `k`'s payload exactly when that payload is already orphan-free, in
particular when it was produced by the save path — and every previously
stored version remains fetchable and unchanged: the restore path, invoking
`saveVersion` without any `expectedEtag`, never conflicts, deletes or
rewrites anything. -/
theorem restore_appends_cleaned_head (st : BoardState) (k : Nat)
    (userId newEtag : String) (vk : VersionRow) (cs : JsValue) (sc : List Char)
    (hk : st.versions.find? (fun r => r.version == k) = some vk)
    (hc : cleanOrphanedFiles vk.sceneJson = .ok cs)
    (he : extractSearchableContent cs = .ok sc)
    (hdup : st.versions.any (fun r => r.version == st.board.versionNumber + 1) = false) :
    ∃ row st',
      restoreVersion st k userId newEtag = .ok (.ok row newEtag, st') ∧
      row.version = st.board.versionNumber + 1 ∧
      row.sceneJson = cs ∧
      st'.versions = st.versions ++ [row] ∧
      (∀ j r, getBoardVersion st j = some r → getBoardVersion st' j = some r) ∧
      (cs = vk.sceneJson → row.sceneJson = vk.sceneJson) := by
  refine ⟨savedRow st
      { userId := userId, sceneJson := vk.sceneJson
        appStateJson := vk.appStateJson
        label := some ("Restored from v" ++ toString k)
        expectedEtag := none, thumbnail := none } cs,
    savedState st
      { userId := userId, sceneJson := vk.sceneJson
        appStateJson := vk.appStateJson
        label := some ("Restored from v" ++ toString k)
        expectedEtag := none, thumbnail := none } cs sc newEtag,
    ?_, rfl, rfl, rfl, ?_, fun hcs => hcs.symm ▸ rfl⟩
  · unfold restoreVersion
    rw [hk]
    exact saveVersion_success st _ newEtag cs sc hc he rfl hdup
  · intro j r hj
    unfold getBoardVersion at hj ⊢
    exact find?_append_of_found _ _ _ _ hj

/-- Witness for C10 (amended): restoring version 1 of the worked board at
version 2 appends head version 3 carrying the collected payload, with
versions 1 and 2 still fetchable unchanged. -/
theorem restore_appends_cleaned_head_witness :
    ∃ row st',
      restoreVersion exRestState 1 "u1" "etag-3" = .ok (.ok row "etag-3", st') ∧
      row.version = exRestState.board.versionNumber + 1 ∧
      row.sceneJson = exCleanedOrphanScene ∧
      st'.versions = exRestState.versions ++ [row] ∧
      (∀ j r, getBoardVersion exRestState j = some r →
        getBoardVersion st' j = some r) ∧
      (exCleanedOrphanScene = exOrphanRow.sceneJson →
        row.sceneJson = exOrphanRow.sceneJson) :=
  restore_appends_cleaned_head exRestState 1 "u1" "etag-3" exOrphanRow
    exCleanedOrphanScene [] rfl rfl rfl (by decide)
